import Mathlib

/-!
Verification of the sppd demo-parser core (bitstream buffer, schema
resolver, property codec, string tables, entity replication).

The TypeScript sources are shallowly embedded: JS numbers are modelled as
`ℚ` where fractional values can occur and as `Nat`/`Int` where the source
only ever holds integers; byte blobs (`Uint8Array`) are `List Nat` whose
in-range entries are below 256 (out-of-range reads yield 0 and
out-of-range writes are dropped, like JS typed arrays); JS strings are
`List Nat` of character codes.  JS 32-bit bitwise-operator quirks (shift
counts taken mod 32, `ToInt32` truncation) are modelled explicitly.
-/

set_option maxHeartbeats 1600000
set_option maxRecDepth 8000

/-- JS `ToInt32`'s first step: truncation of a JS number toward zero. -/
def jsTrunc (q : ℚ) : Int := if q < 0 then ⌈q⌉ else ⌊q⌋

/-- The JS expression `1 << size`: the shift count is reduced mod 32 and
the result is a signed 32-bit value, so `1 << 31` is `-2^31` and
`1 << 32` is `1`. -/
def jsShlOne (size : Nat) : Int :=
  if size % 32 = 31 then -(2 ^ 31) else 2 ^ (size % 32)

/-- `DemoBuffer.highestBitIndex`: index of the most significant set bit
among bits 0..31, or `-1` when none is set (descending linear scan). -/
def hbiAux (i : Nat) : Nat → Int
  | 0 => if i.testBit 0 then 0 else -1
  | j + 1 => if i.testBit (j + 1) then (j + 1 : Int) else hbiAux i j

/-- `DemoBuffer.highestBitIndex (i)`. -/
def highestBitIndex (i : Nat) : Int := hbiAux i 31

/-- The demo byte buffer: a byte blob plus a bit-granularity cursor
(`DemoBuffer` in DemoBuffer.ts). -/
structure DemoBuffer where
  bytes : List Nat
  cursor : Nat
  deriving DecidableEq, Repr

/-- `DemoBuffer.getBit`: value of the bit at absolute bit address `pos`
(reads beyond the blob see byte 0). -/
def DemoBuffer.getBit (b : DemoBuffer) (pos : Nat) : Nat :=
  let bitOffset := pos % 8
  let byteOffset := pos / 8
  let byte := b.bytes.getD byteOffset 0
  (byte >>> bitOffset) &&& 1

/-- `DemoBuffer.getByte`: unsigned byte starting at absolute bit address
`pos`, straddling two stored bytes when unaligned. -/
def DemoBuffer.getByte (b : DemoBuffer) (pos : Nat) : Nat :=
  let bitOffset := pos % 8
  let byteOffset := pos / 8
  let left := b.bytes.getD byteOffset 0
  if bitOffset = 0 then left
  else
    let right := b.bytes.getD (byteOffset + 1) 0
    (left >>> bitOffset) ||| ((right <<< (8 - bitOffset)) &&& 0xFF)

/-- `DemoBuffer.getBitSlice`: the bytes covering bit range
`[start, stop)`, with the trailing partial byte masked. -/
def DemoBuffer.getBitSlice (b : DemoBuffer) (start stop : Nat) : List Nat :=
  let n := stop - start
  let count := (n + 7) / 8
  let bitOffset := n % 8
  (List.range count).map (fun i =>
    let byte := b.getByte (start + 8 * i)
    if bitOffset ≠ 0 ∧ i = count - 1 then byte &&& (2 ^ bitOffset - 1) else byte)

/-- Little-endian byte-list to number accumulation, as in the loop of
`DemoBuffer.getInt` (`output = output * 256 + bytes[i]` from the top). -/
def bytesToNatLE (l : List Nat) : Nat :=
  l.foldr (fun byte acc => acc * 256 + byte) 0

/-- `DemoBuffer.getInt`: unsigned integer of `size` bits at absolute bit
address `src`. -/
def DemoBuffer.getInt (b : DemoBuffer) (src size : Nat) : Nat :=
  bytesToNatLE (b.getBitSlice src (src + size))

/-- `DemoBuffer.getSignedInt`: reads `size` bits and reinterprets via the
sign-bit test `value & (1 << (size-1))` and the correction
`value - (1 << size)`, with JS shift semantics (`jsShlOne`). -/
def DemoBuffer.getSignedInt (b : DemoBuffer) (src size : Nat) : Int :=
  let value := b.getInt src size
  if value.testBit ((size - 1) % 32) then (value : Int) - jsShlOne size
  else value

/-- IEEE-754 binary32 bit pattern to its exact rational value.  NaN and
the infinities have no rational counterpart and are modelled as 0; no
claim in this development depends on them. -/
def float32OfBits (bits : Nat) : ℚ :=
  let sign : ℚ := if bits.testBit 31 then -1 else 1
  let exp : Nat := (bits >>> 23) &&& 255
  let frac : Nat := bits &&& (2 ^ 23 - 1)
  if exp = 255 then 0
  else if exp = 0 then sign * (frac : ℚ) / 2 ^ 149
  else sign * ((2 ^ 23 + frac : ℚ) / 2 ^ 150) * 2 ^ exp

/-- `DemoBuffer.getFloat`: 32-bit float at absolute bit address `src`
(little-endian byte order, as the source's DataView read). -/
def DemoBuffer.getFloat (b : DemoBuffer) (src : Nat) : ℚ :=
  float32OfBits (bytesToNatLE (b.getBitSlice src (src + 32)))

/-- `DemoBuffer.getString`: character codes in the given bit range. -/
def DemoBuffer.getString (b : DemoBuffer) (src size : Nat) : List Nat :=
  b.getBitSlice src (src + size)

/-- Helper for `getNullTerminatedString`: the source loop runs at most
`bytes.length` iterations (`i < this.bytes.length * 8` stepping by 8). -/
def DemoBuffer.getNullTerminatedStringAux (b : DemoBuffer) (src : Nat) :
    Nat → List Nat
  | 0 => []
  | n + 1 =>
    let byte := b.getByte src
    if byte = 0 then [] else byte :: b.getNullTerminatedStringAux (src + 8) n

/-- `DemoBuffer.getNullTerminatedString`: bytes from `src` up to (not
including) the first zero byte. -/
def DemoBuffer.getNullTerminatedString (b : DemoBuffer) (src : Nat) : List Nat :=
  b.getNullTerminatedStringAux src b.bytes.length

/-- `DemoBuffer.nextBit`: cursor-based bit read. -/
def DemoBuffer.nextBit (b : DemoBuffer) : Nat × DemoBuffer :=
  (b.getBit b.cursor, { b with cursor := b.cursor + 1 })

/-- `DemoBuffer.nextByte`: cursor-based byte read. -/
def DemoBuffer.nextByte (b : DemoBuffer) : Nat × DemoBuffer :=
  (b.getByte b.cursor, { b with cursor := b.cursor + 8 })

/-- `DemoBuffer.nextBytes`: cursor-based slice read of `size` bits. -/
def DemoBuffer.nextBytes (b : DemoBuffer) (size : Nat) : List Nat × DemoBuffer :=
  (b.getBitSlice b.cursor (b.cursor + size), { b with cursor := b.cursor + size })

/-- `DemoBuffer.nextString`. -/
def DemoBuffer.nextString (b : DemoBuffer) (size : Nat) : List Nat × DemoBuffer :=
  (b.getString b.cursor size, { b with cursor := b.cursor + size })

/-- `DemoBuffer.nextNullTerminatedString` (cursor advances past the
terminating zero byte). -/
def DemoBuffer.nextNullTerminatedString (b : DemoBuffer) : List Nat × DemoBuffer :=
  let s := b.getNullTerminatedString b.cursor
  (s, { b with cursor := b.cursor + s.length * 8 + 8 })

/-- `DemoBuffer.nextInt`. -/
def DemoBuffer.nextInt (b : DemoBuffer) (size : Nat) : Nat × DemoBuffer :=
  (b.getInt b.cursor size, { b with cursor := b.cursor + size })

/-- `DemoBuffer.nextSignedInt`. -/
def DemoBuffer.nextSignedInt (b : DemoBuffer) (size : Nat) : Int × DemoBuffer :=
  (b.getSignedInt b.cursor size, { b with cursor := b.cursor + size })

/-- `DemoBuffer.nextFloat`. -/
def DemoBuffer.nextFloat (b : DemoBuffer) : ℚ × DemoBuffer :=
  (b.getFloat b.cursor, { b with cursor := b.cursor + 32 })

/-- `DemoBuffer.nextBitInt`: 4 bits, then a 2-bit selector choosing an
extension of 0, 4, 8, or 28 further bits OR-ed in above bit 3.  (JS
`(ret | (x << 4)) >>> 0` is the unsigned view; all operands here are
nonnegative and below 2^32, so plain `|||` is exact.) -/
def DemoBuffer.nextBitInt (b : DemoBuffer) : Nat × DemoBuffer :=
  let (ret, b) := b.nextInt 4
  let (sel, b) := b.nextInt 2
  match sel with
  | 1 => let (x, b) := b.nextInt 4; (ret ||| (x <<< 4), b)
  | 2 => let (x, b) := b.nextByte; (ret ||| (x <<< 4), b)
  | 3 => let (x, b) := b.nextInt 28; (ret ||| (x <<< 4), b)
  | _ => (ret, b)

/-- `DemoBuffer.nextPropertyIndex`: variable-length encoding of the next
property index; returns -1 on the sentinel 0xFFF. -/
def DemoBuffer.nextPropertyIndex (b : DemoBuffer) (lastIndex : Int)
    (newScheme : Bool) : Int × DemoBuffer :=
  if newScheme then
    let (bit1, b) := b.nextBit
    if bit1 ≠ 0 then (lastIndex + 1, b)
    else
      let (bit2, b) := b.nextBit
      if bit2 ≠ 0 then
        let (ret, b) := b.nextInt 3
        if ret = 0xFFF then (-1, b) else (lastIndex + 1 + ret, b)
      else
        let (ret, b) := b.nextInt 5
        let (sel, b) := b.nextInt 2
        let (ret, b) :=
          match sel with
          | 1 => let (x, b) := b.nextInt 2; (ret ||| (x <<< 5), b)
          | 2 => let (x, b) := b.nextInt 4; (ret ||| (x <<< 5), b)
          | 3 => let (x, b) := b.nextInt 7; (ret ||| (x <<< 5), b)
          | _ => (ret, b)
        if ret = 0xFFF then (-1, b) else (lastIndex + 1 + ret, b)
  else
    let (ret, b) := b.nextInt 5
    let (sel, b) := b.nextInt 2
    let (ret, b) :=
      match sel with
      | 1 => let (x, b) := b.nextInt 2; (ret ||| (x <<< 5), b)
      | 2 => let (x, b) := b.nextInt 4; (ret ||| (x <<< 5), b)
      | 3 => let (x, b) := b.nextInt 7; (ret ||| (x <<< 5), b)
      | _ => (ret, b)
    if ret = 0xFFF then (-1, b) else (lastIndex + 1 + ret, b)

/-- `DemoBuffer.setBit`: writes one bit; writes beyond the blob are
dropped (Uint8Array semantics).  Clearing uses the 32-bit complement
`byte & ~bit`, exact for stored bytes below 2^32. -/
def DemoBuffer.setBit (b : DemoBuffer) (pos : Nat) (value : Bool) : DemoBuffer :=
  let byteIndex := pos / 8
  let bitIndex := pos % 8
  if byteIndex < b.bytes.length then
    let byte := b.bytes.getD byteIndex 0
    let newByte :=
      if value then byte ||| 2 ^ bitIndex
      else byte &&& (2 ^ 32 - 1 - 2 ^ bitIndex)
    { b with bytes := b.bytes.set byteIndex newByte }
  else b

/-- `DemoBuffer.setInt`: writes the low `size` bits of `value`.  The JS
source tests `value & (1 << i)`, i.e. bit `i` of `ToInt32(value)`; the
truncation and mod-2^32 reduction are made explicit here. -/
def DemoBuffer.setInt (b : DemoBuffer) (src size : Nat) (value : ℚ) : DemoBuffer :=
  let bits := (jsTrunc value % (2 ^ 32 : Int)).toNat
  (List.range size).foldl (fun acc i => acc.setBit (src + i) (bits.testBit i)) b

/-- `DemoBuffer.setSignedInt`: biases a negative value by JS `1 << size`
(which is `jsShlOne size`, wrapping at size 32 and negative at 31),
then writes it with `setInt`. -/
def DemoBuffer.setSignedInt (b : DemoBuffer) (src size : Nat) (value : ℚ) :
    DemoBuffer :=
  let v := if value < 0 then (jsShlOne size : ℚ) + value else value
  b.setInt src size v

/-- Round a nonnegative rational to the nearest integer, ties to even. -/
def roundNearestEven (x : ℚ) : Nat :=
  let f := ⌊x⌋.toNat
  let r := x - f
  if r < 1 / 2 then f
  else if 1 / 2 < r then f + 1
  else if f % 2 = 0 then f else f + 1

/-- 2 to an integer power, in ℚ. -/
def qpow2 (e : Int) : ℚ := if 0 ≤ e then 2 ^ e.toNat else 1 / 2 ^ (-e).toNat

/-- IEEE-754 binary32 bit pattern of a rational (round to nearest, ties
to even), the model of the source's `DataView.setFloat32`. -/
def float32BitsOfRat (q : ℚ) : Nat :=
  if q = 0 then 0 else
  let sign := if q < 0 then 2 ^ 31 else 0
  let a := |q|
  let l : Int := (a.num.natAbs.log2 : Int) - (a.den.log2 : Int)
  let e : Int :=
    if qpow2 (l + 1) ≤ a then l + 1
    else if qpow2 l ≤ a then l else l - 1
  if e < -126 then
    -- subnormal range: unit in the last place is 2^-149
    sign + roundNearestEven (a * 2 ^ 149)
  else if 127 < e then sign + 255 * 2 ^ 23
  else
    let m := roundNearestEven (a * qpow2 (23 - e))
    if m = 2 ^ 24 then
      if e = 127 then sign + 255 * 2 ^ 23
      else sign + ((e + 128).toNat * 2 ^ 23 + 0)
    else sign + ((e + 127).toNat * 2 ^ 23 + (m - 2 ^ 23))

/-- `DemoBuffer.setFloat`: writes the 32-bit pattern of `value` (the
source's big-endian DataView write and read cancel out). -/
def DemoBuffer.setFloat (b : DemoBuffer) (src : Nat) (value : ℚ) : DemoBuffer :=
  b.setInt src 32 (float32BitsOfRat value : ℚ)

-- Basic facts about out-of-range reads.

theorem getD_eq_zero_of_ge {l : List Nat} {i : Nat} (h : l.length ≤ i) :
    l[i]?.getD 0 = 0 := by
  rw [List.getElem?_eq_none h]
  rfl

theorem bytesToNatLE_eq_zero {l : List Nat} (h : ∀ x ∈ l, x = 0) :
    bytesToNatLE l = 0 := by
  induction l with
  | nil => rfl
  | cons a t ih =>
    simp only [bytesToNatLE, List.foldr_cons] at *
    rw [ih fun x hx => h x (List.mem_cons_of_mem a hx), h a (List.mem_cons_self a t)]

/-- C10: every absolute-address read primitive is a total function of the
buffer (the Lean embedding is total by construction), and all bits
addressed at or beyond `len(bytes)*8` read as zero: `getBit` and
`getByte` give 0, every byte of `getBitSlice` is 0, and `getInt` and
`getSignedInt` give 0, for every address past the blob. -/
theorem reads_beyond_end_are_zero (b : DemoBuffer) (pos : Nat)
    (h : 8 * b.bytes.length ≤ pos) :
    b.getBit pos = 0 ∧ b.getByte pos = 0 ∧
    (∀ stop, ∀ x ∈ b.getBitSlice pos stop, x = 0) ∧
    (∀ size, b.getInt pos size = 0) ∧
    (∀ size, b.getSignedInt pos size = 0) := by
  have hlen : b.bytes.length ≤ pos / 8 := by
    rw [Nat.le_div_iff_mul_le (by norm_num)]
    omega
  have hbit : b.getBit pos = 0 := by
    simp [DemoBuffer.getBit, getD_eq_zero_of_ge hlen]
  have hbyte : ∀ p, pos ≤ p → b.getByte p = 0 := by
    intro p hp
    have h1 : b.bytes.length ≤ p / 8 := le_trans hlen (Nat.div_le_div_right hp)
    have h2 : b.bytes.length ≤ p / 8 + 1 := le_trans h1 (Nat.le_succ _)
    simp [DemoBuffer.getByte, getD_eq_zero_of_ge h1, getD_eq_zero_of_ge h2]
  have hslice : ∀ stop, ∀ x ∈ b.getBitSlice pos stop, x = 0 := by
    intro stop x hx
    simp only [DemoBuffer.getBitSlice, List.mem_map, List.mem_range] at hx
    obtain ⟨i, -, heq⟩ := hx
    rw [hbyte (pos + 8 * i) (Nat.le_add_right _ _)] at heq
    split at heq <;> simp_all
  have hint : ∀ size, b.getInt pos size = 0 := fun size =>
    bytesToNatLE_eq_zero (hslice (pos + size))
  refine ⟨hbit, hbyte pos le_rfl, hslice, hint, fun size => ?_⟩
  simp [DemoBuffer.getSignedInt, hint size]

/-- Witness for C10 at a concrete buffer: one byte `[5]`, read address 9
(just past the 8 bits of the blob). -/
theorem reads_beyond_end_are_zero_witness :
    (8 * (DemoBuffer.mk [5] 0).bytes.length ≤ 9) ∧
    (DemoBuffer.mk [5] 0).getBit 9 = 0 ∧
    (DemoBuffer.mk [5] 0).getInt 9 7 = 0 := by
  have h := reads_beyond_end_are_zero (DemoBuffer.mk [5] 0) 9 (by decide)
  exact ⟨by decide, h.1, h.2.2.2.1 7⟩

-- Bit-level characterization of the buffer primitives, used to settle the
-- set/get round-trip claims.

/-- A byte blob is well formed when all entries are bytes (as guaranteed
by `Uint8Array` in the source). -/
def BytesWF (l : List Nat) : Prop := ∀ x ∈ l, x < 256

/-- The bit of the blob at bit address `p`, as a `Bool`. -/
def bitAt (b : DemoBuffer) (p : Nat) : Bool :=
  (b.bytes.getD (p / 8) 0).testBit (p % 8)

theorem getBit_eq_bitAt (b : DemoBuffer) (p : Nat) :
    b.getBit p = if bitAt b p then 1 else 0 := by
  simp only [DemoBuffer.getBit, bitAt, Nat.and_one_is_mod,
    Nat.shiftRight_eq_div_pow, Nat.testBit_to_div_mod]
  rcases Nat.mod_two_eq_zero_or_one (b.bytes[p / 8]?.getD 0 / 2 ^ (p % 8)) with h | h <;>
    simp [h]

theorem getD_lt_256 {l : List Nat} (hw : BytesWF l) (i : Nat) : l.getD i 0 < 256 := by
  rw [List.getD_eq_getElem?_getD]
  rcases h : l[i]? with _ | x
  · simp
  · have hx : x ∈ l := by
      have := List.getElem?_eq_some_iff.mp h
      obtain ⟨hlt, heq⟩ := this
      exact heq ▸ List.getElem_mem hlt
    have := hw x hx
    simpa using this

theorem getByte_testBit {b : DemoBuffer} (hw : BytesWF b.bytes) (pos k : Nat)
    (hk : k < 8) : (b.getByte pos).testBit k = bitAt b (pos + k) := by
  simp only [DemoBuffer.getByte, bitAt]
  by_cases hoff : pos % 8 = 0
  · have h1 : (pos + k) / 8 = pos / 8 := by omega
    have h2 : (pos + k) % 8 = k := by omega
    simp [hoff, h1, h2]
  · rw [if_neg hoff]
    have h255 : (255 : Nat) = 2 ^ 8 - 1 := by norm_num
    rw [h255]
    simp only [Nat.testBit_or, Nat.testBit_and, Nat.testBit_shiftRight,
      Nat.testBit_shiftLeft, Nat.testBit_two_pow_sub_one]
    by_cases hc : pos % 8 + k < 8
    · have hd : ¬ (8 - pos % 8 ≤ k) := by omega
      have h1 : (pos + k) / 8 = pos / 8 := by omega
      have h2 : (pos + k) % 8 = pos % 8 + k := by omega
      simp [hd, h1, h2]
    · have hd : 8 - pos % 8 ≤ k := by omega
      have hlt : b.bytes.getD (pos / 8) 0 < 2 ^ (pos % 8 + k) := by
        calc b.bytes.getD (pos / 8) 0 < 256 := getD_lt_256 hw _
        _ ≤ 2 ^ (pos % 8 + k) := by
            have : (256 : Nat) = 2 ^ 8 := by norm_num
            rw [this]
            exact Nat.pow_le_pow_right (by norm_num) (by omega)
      rw [Nat.testBit_lt_two_pow hlt]
      have h1 : (pos + k) / 8 = pos / 8 + 1 := by omega
      have h2 : (pos + k) % 8 = k - (8 - pos % 8) := by omega
      simp [hd, hk, h1, h2]

theorem bytesToNatLE_cons (a : Nat) (t : List Nat) :
    bytesToNatLE (a :: t) = 256 * bytesToNatLE t + a := by
  simp [bytesToNatLE, List.foldr_cons]
  ring

theorem bytesToNatLE_testBit {l : List Nat} (hw : BytesWF l) (j : Nat) :
    (bytesToNatLE l).testBit j = (l.getD (j / 8) 0).testBit (j % 8) := by
  induction l generalizing j with
  | nil => simp [bytesToNatLE, List.getD]
  | cons a t ih =>
    have ha : a < 256 := hw a (List.mem_cons_self a t)
    have hwt : BytesWF t := fun x hx => hw x (List.mem_cons_of_mem a hx)
    rw [bytesToNatLE_cons]
    have h256 : (256 : Nat) = 2 ^ 8 := by norm_num
    rw [h256] at ha ⊢
    rw [Nat.testBit_mul_pow_two_add _ ha j]
    by_cases hj : j < 8
    · have h1 : j / 8 = 0 := by omega
      have h2 : j % 8 = j := by omega
      simp [hj, h1, h2, List.getD]
    · have h1 : j / 8 = (j - 8) / 8 + 1 := by omega
      have h2 : j % 8 = (j - 8) % 8 := by omega
      rw [if_neg hj, ih hwt (j - 8), h1, h2]
      simp [List.getD]

theorem getBitSlice_wf {b : DemoBuffer} (hw : BytesWF b.bytes) (start stop : Nat) :
    BytesWF (b.getBitSlice start stop) := by
  intro x hx
  simp only [DemoBuffer.getBitSlice, List.mem_map, List.mem_range] at hx
  obtain ⟨i, -, heq⟩ := hx
  have hbyte : b.getByte (start + 8 * i) < 256 := by
    simp only [DemoBuffer.getByte]
    split
    · exact getD_lt_256 hw _
    · have h1 : b.bytes.getD ((start + 8 * i) / 8) 0 >>> ((start + 8 * i) % 8) < 256 := by
        have h1a : b.bytes.getD ((start + 8 * i) / 8) 0 >>> ((start + 8 * i) % 8)
            ≤ b.bytes.getD ((start + 8 * i) / 8) 0 := by
          rw [Nat.shiftRight_eq_div_pow]
          exact Nat.div_le_self _ _
        exact lt_of_le_of_lt h1a (getD_lt_256 hw _)
      have h2 : b.bytes.getD ((start + 8 * i) / 8 + 1) 0 <<<
          (8 - (start + 8 * i) % 8) &&& 255 < 256 := by
        have := Nat.and_le_right (n := b.bytes.getD ((start + 8*i)/8 + 1) 0 <<<
          (8 - (start + 8 * i) % 8)) (m := 255)
        omega
      have h256 : (256 : Nat) = 2 ^ 8 := by norm_num
      rw [h256] at h1 h2 ⊢
      exact Nat.or_lt_two_pow h1 h2
  subst heq
  split
  · have := Nat.and_le_left
      (n := b.getByte (start + 8 * i)) (m := 2 ^ ((stop - start) % 8) - 1)
    omega
  · exact hbyte

theorem getInt_testBit {b : DemoBuffer} (hw : BytesWF b.bytes)
    (src size j : Nat) :
    (b.getInt src size).testBit j =
      if j < size then bitAt b (src + j) else false := by
  have hslicewf := getBitSlice_wf hw src (src + size)
  rw [DemoBuffer.getInt, bytesToNatLE_testBit hslicewf j]
  simp only [DemoBuffer.getBitSlice]
  have hn : src + size - src = size := by omega
  rw [hn]
  set count := (size + 7) / 8 with hcount
  by_cases hjc : j / 8 < count
  · rw [List.getD_eq_getElem?_getD, List.getElem?_map,
      List.getElem?_range hjc]
    simp only [Option.map_some', Option.getD_some]
    by_cases hj : j < size
    · rw [if_pos hj]
      have hbyte := getByte_testBit hw (src + 8 * (j / 8)) (j % 8) (by omega)
      have harith : src + 8 * (j / 8) + j % 8 = src + j := by omega
      rw [harith] at hbyte
      split
      · next hmask =>
        obtain ⟨hr, hi⟩ := hmask
        rw [Nat.testBit_and, Nat.testBit_two_pow_sub_one]
        have hjr : j % 8 < size % 8 := by omega
        simp [hbyte, hjr]
      · exact hbyte
    · rw [if_neg hj]
      -- j is in the padding of the final (masked) byte
      have hr : size % 8 ≠ 0 := by omega
      have hi : j / 8 = count - 1 := by omega
      rw [if_pos ⟨hr, hi⟩, Nat.testBit_and, Nat.testBit_two_pow_sub_one]
      have hjr : ¬ (j % 8 < size % 8) := by omega
      simp [hjr]
  · rw [List.getD_eq_getElem?_getD, List.getElem?_map]
    have hnone : (List.range count)[j / 8]? = none := by
      rw [List.getElem?_eq_none]
      simpa using Nat.le_of_not_lt hjc
    have hj : ¬ j < size := by omega
    simp [hnone, hj]

theorem getInt_eq_of_testBit {b : DemoBuffer} (hw : BytesWF b.bytes)
    {src size v : Nat} (hv : v < 2 ^ size)
    (hbits : ∀ j, j < size → bitAt b (src + j) = v.testBit j) :
    b.getInt src size = v := by
  apply Nat.eq_of_testBit_eq
  intro j
  rw [getInt_testBit hw]
  by_cases hj : j < size
  · rw [if_pos hj, hbits j hj]
  · rw [if_neg hj, eq_comm]
    exact Nat.testBit_lt_two_pow (lt_of_lt_of_le hv
      (Nat.pow_le_pow_right (by norm_num) (by omega)))

-- Characterization of the write primitives.

theorem setBit_bytes_length (b : DemoBuffer) (pos : Nat) (v : Bool) :
    (b.setBit pos v).bytes.length = b.bytes.length := by
  simp only [DemoBuffer.setBit]
  split <;> simp

theorem setBit_cursor (b : DemoBuffer) (pos : Nat) (v : Bool) :
    (b.setBit pos v).cursor = b.cursor := by
  simp only [DemoBuffer.setBit]
  split <;> simp

theorem mask_testBit (m k : Nat) (hm : m < 8) (hk : k < 8) :
    (2 ^ 32 - 1 - 2 ^ m).testBit k = decide (k ≠ m) := by
  interval_cases m <;> interval_cases k <;> decide

theorem setBit_bitAt (b : DemoBuffer) (pos : Nat) (v : Bool) (p : Nat) :
    bitAt (b.setBit pos v) p =
      if p = pos ∧ pos / 8 < b.bytes.length then v else bitAt b p := by
  simp only [DemoBuffer.setBit]
  split
  · next hlt =>
    simp only [bitAt, List.getD_eq_getElem?_getD]
    by_cases hbyte : p / 8 = pos / 8
    · rw [hbyte, List.getElem?_set_self hlt]
      simp only [Option.getD_some]
      by_cases hbit : p % 8 = pos % 8
      · have hp : p = pos := by omega
        cases v with
        | true =>
          rw [if_pos rfl]
          simp [hp, hlt, Nat.testBit_or, Nat.testBit_two_pow, hbit]
        | false =>
          rw [if_neg (by simp)]
          simp only [hp, hlt, and_self, if_true]
          rw [Nat.testBit_and, mask_testBit _ _ (by omega) (by omega)]
          simp
      · have hp : p ≠ pos := by omega
        simp only [hp, false_and, if_false]
        cases v with
        | true =>
          rw [if_pos rfl]
          simp only [Nat.testBit_or, Nat.testBit_two_pow]
          have : ¬ (pos % 8 = p % 8) := by omega
          simp [this]
        | false =>
          rw [if_neg (by simp)]
          rw [Nat.testBit_and, mask_testBit _ _ (by omega) (by omega)]
          simp [hbit]
    · rw [List.getElem?_set_ne (by omega)]
      have hp : p ≠ pos := by omega
      simp [hp, bitAt, List.getD_eq_getElem?_getD]
  · next hge =>
    have : ¬ (p = pos ∧ pos / 8 < b.bytes.length) := by
      rintro ⟨-, h2⟩
      exact hge h2
    simp [this]

theorem setBit_wf {b : DemoBuffer} (hw : BytesWF b.bytes) (pos : Nat) (v : Bool) :
    BytesWF (b.setBit pos v).bytes := by
  simp only [DemoBuffer.setBit]
  split
  · intro x hx
    rcases List.mem_or_eq_of_mem_set hx with h | h
    · exact hw x h
    · subst h
      split
      · have h1 : b.bytes.getD (pos / 8) 0 < 2 ^ 8 := by
          have := getD_lt_256 hw (pos / 8)
          omega
        have h2 : (2 : Nat) ^ (pos % 8) < 2 ^ 8 :=
          Nat.pow_lt_pow_right (by norm_num) (by omega)
        have := Nat.or_lt_two_pow h1 h2
        omega
      · have h1 := getD_lt_256 hw (pos / 8)
        have := Nat.and_le_left (n := b.bytes.getD (pos / 8) 0)
          (m := 2 ^ 32 - 1 - 2 ^ (pos % 8))
        omega
  · exact hw

theorem setInt_props (b : DemoBuffer) (src size : Nat) (value : ℚ)
    (hw : BytesWF b.bytes) :
    BytesWF (b.setInt src size value).bytes ∧
    (b.setInt src size value).bytes.length = b.bytes.length ∧
    ∀ p, bitAt (b.setInt src size value) p =
      if src ≤ p ∧ p < src + size ∧ p / 8 < b.bytes.length then
        ((jsTrunc value % (2 ^ 32 : Int)).toNat).testBit (p - src)
      else bitAt b p := by
  simp only [DemoBuffer.setInt]
  set bits := (jsTrunc value % (2 ^ 32 : Int)).toNat with hbits
  clear_value bits
  induction size with
  | zero =>
    refine ⟨hw, rfl, fun p => ?_⟩
    rw [if_neg (by omega)]
    rfl
  | succ n ih =>
    obtain ⟨ihwf, ihlen, ihbit⟩ := ih
    rw [List.range_succ, List.foldl_append, List.foldl_cons, List.foldl_nil]
    refine ⟨setBit_wf ihwf _ _, by rw [setBit_bytes_length, ihlen], fun p => ?_⟩
    rw [setBit_bitAt, ihlen, ihbit p]
    by_cases hin : p / 8 < b.bytes.length
    · by_cases hp : p = src + n
      · subst hp
        rw [if_pos ⟨rfl, hin⟩, if_pos ⟨by omega, by omega, hin⟩]
        congr 1
        omega
      · rw [if_neg (by tauto)]
        by_cases h2 : src ≤ p ∧ p < src + n
        · rw [if_pos ⟨h2.1, h2.2, hin⟩, if_pos ⟨h2.1, by omega, hin⟩]
        · rw [if_neg (by tauto), if_neg ?_]
          rintro ⟨ha, hb, -⟩
          exact h2 ⟨ha, by omega⟩
    · have h1 : ¬ (p = src + n ∧ (src + n) / 8 < b.bytes.length) := by
        rintro ⟨he, hl⟩
        rw [he] at hin
        exact hin hl
      rw [if_neg h1, if_neg (by tauto), if_neg (by tauto)]

/-- General write/read agreement: `setInt` followed by `getInt` at the
same address and width returns the written value's low-32-bit image,
whenever that image fits in `w` bits and the addressed range lies inside
the blob. -/
theorem setInt_getInt_general (b : DemoBuffer) (src w : Nat) (q : ℚ)
    (hw : BytesWF b.bytes)
    (hfit : (jsTrunc q % (2 ^ 32 : Int)).toNat < 2 ^ w)
    (hin : src + w ≤ 8 * b.bytes.length) :
    (b.setInt src w q).getInt src w = (jsTrunc q % (2 ^ 32 : Int)).toNat := by
  obtain ⟨hwf, hlen, hbit⟩ := setInt_props b src w q hw
  apply getInt_eq_of_testBit hwf hfit
  intro j hj
  rw [hbit (src + j)]
  have hcond : src ≤ src + j ∧ src + j < src + w ∧
      (src + j) / 8 < b.bytes.length := by
    refine ⟨by omega, by omega, ?_⟩
    omega
  rw [if_pos hcond]
  congr 1
  omega

/-- Unsigned round trip: for widths 1..32 and an address range inside the
blob, `setInt` then `getInt` at the same address and width returns the
value (this half of C2 holds). -/
theorem setInt_getInt_roundTrip (b : DemoBuffer) (src w v : Nat)
    (hw : BytesWF b.bytes) (_h1 : 1 ≤ w) (h2 : w ≤ 32) (hv : v < 2 ^ w)
    (hin : src + w ≤ 8 * b.bytes.length) :
    (b.setInt src w (v : ℚ)).getInt src w = v := by
  have htr : jsTrunc (v : ℚ) = (v : Int) := by
    rw [jsTrunc, if_neg (not_lt.mpr (Nat.cast_nonneg v)), Int.floor_natCast]
  have hmod : (jsTrunc (v : ℚ) % (2 ^ 32 : Int)).toNat = v := by
    rw [htr]
    have hv32 : v < 2 ^ 32 :=
      lt_of_lt_of_le hv (Nat.pow_le_pow_right (by norm_num) h2)
    have hcast : ((v : Int)) < ((2 : Int) ^ 32) := by exact_mod_cast hv32
    rw [Int.emod_eq_of_lt (by positivity) hcast]
    simp
  rw [setInt_getInt_general b src w _ hw (by rw [hmod]; exact hv) hin, hmod]

/-- Signed round trip for widths 1..30 (where JS `1 << size` and
`1 << (size - 1)` are still the true powers of two). -/
theorem setSignedInt_getSignedInt_roundTrip (b : DemoBuffer) (src w : Nat)
    (v : Int) (hw : BytesWF b.bytes) (hw1 : 1 ≤ w) (h2 : w ≤ 30)
    (hlo : -(2 ^ (w - 1)) ≤ v) (hhi : v < 2 ^ (w - 1))
    (hin : src + w ≤ 8 * b.bytes.length) :
    (b.setSignedInt src w (v : ℚ)).getSignedInt src w = v := by
  obtain ⟨k, rfl⟩ : ∃ k, w = k + 1 := ⟨w - 1, by omega⟩
  have hk1 : k + 1 - 1 = k := by omega
  rw [hk1] at hlo hhi
  have hshl : jsShlOne (k + 1) = 2 ^ (k + 1) := by
    rw [jsShlOne, Nat.mod_eq_of_lt (by omega), if_neg (by omega)]
  have hpow : (2 : Int) ^ (k + 1) = 2 ^ k * 2 := by ring
  have hposk : (0 : Int) < 2 ^ k := by positivity
  have hcastk : ((2 ^ k : Nat) : Int) = 2 ^ k := by push_cast; ring
  have hcastk1 : ((2 ^ (k + 1) : Nat) : Int) = 2 ^ (k + 1) := by push_cast; ring
  rcases le_or_lt 0 v with hpos | hneg
  · -- nonnegative: stored as-is
    have hto : (v.toNat : Int) = v := Int.toNat_of_nonneg hpos
    have hvnat : v.toNat < 2 ^ (k + 1) := by omega
    have hvnatk : v.toNat < 2 ^ k := by omega
    have hcast : ((v.toNat : Nat) : ℚ) = (v : ℚ) := by exact_mod_cast hto
    have hseteq : b.setSignedInt src (k + 1) (v : ℚ)
        = b.setInt src (k + 1) ((v.toNat : Nat) : ℚ) := by
      rw [DemoBuffer.setSignedInt,
        if_neg (not_lt.mpr (by exact_mod_cast hpos : (0 : ℚ) ≤ (v : ℚ))), hcast]
    rw [hseteq]
    have hrt := setInt_getInt_roundTrip b src (k + 1) v.toNat hw hw1 (by omega) hvnat hin
    rw [DemoBuffer.getSignedInt, hrt]
    have hbitfalse : v.toNat.testBit (k % 32) = false := by
      rw [Nat.mod_eq_of_lt (by omega)]
      exact Nat.testBit_lt_two_pow hvnatk
    rw [if_neg (by simp [hbitfalse])]
    omega
  · -- negative: biased by 2^(k+1)
    set u : Int := 2 ^ (k + 1) + v with hu
    have hu0 : (0 : Int) ≤ u := by omega
    have hu1 : (2 : Int) ^ k ≤ u := by omega
    have hu2 : u < 2 ^ (k + 1) := by omega
    have hto : (u.toNat : Int) = u := Int.toNat_of_nonneg hu0
    have hq : ((u.toNat : Nat) : ℚ) = ((u : Int) : ℚ) := by exact_mod_cast hto
    have hsetval : ((jsShlOne (k + 1) : Int) : ℚ) + (v : ℚ) = ((u.toNat : Nat) : ℚ) := by
      rw [hshl, hq, hu]
      push_cast
      ring
    have hsetarg : b.setSignedInt src (k + 1) (v : ℚ)
        = b.setInt src (k + 1) ((u.toNat : Nat) : ℚ) := by
      rw [DemoBuffer.setSignedInt, if_pos (by exact_mod_cast hneg : (v : ℚ) < 0), hsetval]
    rw [hsetarg]
    have huw : u.toNat < 2 ^ (k + 1) := by omega
    have hrt := setInt_getInt_roundTrip b src (k + 1) u.toNat hw hw1 (by omega) huw hin
    rw [DemoBuffer.getSignedInt, hrt]
    have hbittrue : u.toNat.testBit (k % 32) = true := by
      rw [Nat.mod_eq_of_lt (by omega), Nat.testBit_to_div_mod]
      have e1 : (2 : Nat) ^ k ≤ u.toNat := by omega
      have e2 : u.toNat < 2 ^ k * 2 := by
        have hp : (2 : Int) ^ k * 2 = 2 ^ (k + 1) := by ring
        omega
      have hdiv : u.toNat / 2 ^ k = 1 :=
        Nat.div_eq_of_lt_le (by omega) (by omega)
      simp [hdiv]
    rw [if_pos (by simp [hbittrue]), hshl]
    omega

/-- C2, failing inputs: on a four-byte zero blob, the signed round trip
breaks at widths 31 and 32 for value -1.  At width 32, JS `1 << 32`
evaluates to 1, so `setSignedInt` stores 0 and `getSignedInt` returns 0
instead of -1; at width 31, JS `1 << 31` is `-2^31`, making
`getSignedInt` add `2^31` instead of subtracting it, returning
4294967295 instead of -1.  (The unsigned round trip at width 32 works,
shown for contrast.) -/
theorem signed_roundTrip_bug_width_31_32 :
    ((DemoBuffer.mk [0, 0, 0, 0] 0).setSignedInt 0 32 (-1)).getSignedInt 0 32 = 0 ∧
    ((DemoBuffer.mk [0, 0, 0, 0] 0).setSignedInt 0 31 (-1)).getSignedInt 0 31
      = 4294967295 ∧
    ((DemoBuffer.mk [0, 0, 0, 0] 0).setInt 0 32 ((4294967295 : Nat) : ℚ)).getInt 0 32
      = 4294967295 := by
  have hwf : BytesWF [0, 0, 0, 0] := by
    intro x hx
    simp at hx
    omega
  refine ⟨?_, ?_, ?_⟩
  · have hq : ((jsShlOne 32 : Int) : ℚ) + -1 = ((0 : Nat) : ℚ) := by
      norm_num [jsShlOne]
    have harg : (DemoBuffer.mk [0, 0, 0, 0] 0).setSignedInt 0 32 (-1)
        = (DemoBuffer.mk [0, 0, 0, 0] 0).setInt 0 32 ((0 : Nat) : ℚ) := by
      simp only [DemoBuffer.setSignedInt]
      rw [if_pos (by norm_num : (-1 : ℚ) < 0), hq]
    have hget := setInt_getInt_roundTrip (DemoBuffer.mk [0, 0, 0, 0] 0) 0 32 0
      hwf (by norm_num) (by norm_num) (by norm_num) (by simp)
    rw [harg]
    simp only [DemoBuffer.getSignedInt]
    rw [hget]
    simp
  · have hqeq : ((jsShlOne 31 : Int) : ℚ) + -1 = ((-2147483649 : Int) : ℚ) := by
      norm_num [jsShlOne]
    have htr : jsTrunc (((jsShlOne 31 : Int) : ℚ) + -1) = -2147483649 := by
      rw [hqeq, jsTrunc, if_pos (by norm_num), Int.ceil_intCast]
    have hbits : (jsTrunc (((jsShlOne 31 : Int) : ℚ) + -1) % (2 ^ 32 : Int)).toNat
        = 2147483647 := by
      rw [htr]
      decide
    have harg : (DemoBuffer.mk [0, 0, 0, 0] 0).setSignedInt 0 31 (-1)
        = (DemoBuffer.mk [0, 0, 0, 0] 0).setInt 0 31 (((jsShlOne 31 : Int) : ℚ) + -1) := by
      simp only [DemoBuffer.setSignedInt]
      rw [if_pos (by norm_num : (-1 : ℚ) < 0)]
    have hget := setInt_getInt_general (DemoBuffer.mk [0, 0, 0, 0] 0) 0 31
      (((jsShlOne 31 : Int) : ℚ) + -1) hwf (by rw [hbits]; norm_num) (by simp)
    rw [hbits] at hget
    rw [harg]
    simp only [DemoBuffer.getSignedInt]
    rw [hget, if_pos (by decide : ((2147483647 : Nat).testBit ((31 - 1) % 32)) = true)]
    norm_num [jsShlOne]
  · have h := setInt_getInt_roundTrip (DemoBuffer.mk [0, 0, 0, 0] 0) 0 32 4294967295
      hwf (by norm_num) (by norm_num) (by norm_num) (by simp)
    exact h

-- Schema Resolver data model (DataTable.ts).

/-- `DataTablePropertyType` numeric tags. -/
def propTypeInt : Nat := 0
def propTypeFloat : Nat := 1
def propTypeVector3 : Nat := 2
def propTypeVector2 : Nat := 3
def propTypeString : Nat := 4
def propTypeArray : Nat := 5
def propTypeDataTable : Nat := 6

/-- `DataTablePropertyFlag` bit indices. -/
def flagUnsigned : Nat := 0
def flagCoord : Nat := 1
def flagNoScale : Nat := 2
def flagRoundDown : Nat := 3
def flagRoundUp : Nat := 4
def flagNormal : Nat := 5
def flagExclude : Nat := 6
def flagXyze : Nat := 7
def flagInsideArray : Nat := 8
def flagProxyAlwaysYes : Nat := 9
def flagIsVectorElem : Nat := 10
def flagCollapsible : Nat := 11
def flagCoordMp : Nat := 12
def flagCoordMpLp : Nat := 13
def flagCoordMpInt : Nat := 14
def flagCellCoord : Nat := 15
def flagCellCoordLp : Nat := 16
def flagCellCoordInt : Nat := 17
def flagChangesOften : Nat := 18

/-- The `(low, high, bits)` interpolation range of a property. -/
structure DTValue where
  low : ℚ
  high : ℚ
  bits : Nat
  deriving DecidableEq, Repr

/-- `DataTableProperty`: one row of a schema table. -/
structure DataTableProperty where
  type : Nat
  name : List Nat
  flags : Nat
  priority : Nat
  excludeName : Option (List Nat) := none
  value : Option DTValue := none
  arrayElements : Option Nat := none
  deriving DecidableEq, Repr

/-- `DataTableProperty.hasFlag`: JS `(flags & (1 << flag)) !== 0`. -/
def DataTableProperty.hasFlag (p : DataTableProperty) (flag : Nat) : Bool :=
  p.flags.testBit flag

/-- `DataTable`: a named table of property rows. -/
structure DataTable where
  needsDecoder : Bool
  name : List Nat
  properties : List DataTableProperty
  deriving DecidableEq, Repr

/-- `ServerClass`. -/
structure ServerClass where
  tableID : Nat
  className : List Nat
  tableName : List Nat
  deriving DecidableEq, Repr

/-- `FlatProperty`: one entry of a class's flattened property list. -/
structure FlatProperty where
  name : List Nat
  baseProperty : DataTableProperty
  baseArrayProperty : Option DataTableProperty := none
  deriving DecidableEq, Repr

/-- The priority bucket list of `ParserClass.sortProperties`: all declared
priorities plus 64, numerically sorted (the source's `Array.sort` with
comparator `a - b`), de-duplicated keeping the ascending order (the
source's insertion-ordered `Set` built from a sorted array). -/
def prioritySet (flatProperties : List FlatProperty) : List Nat :=
  (((flatProperties.map fun e : FlatProperty => e.baseProperty.priority)
    ++ [64]).insertionSort (fun a b => a ≤ b)).dedup

/-- One scan of `ParserClass.sortProperties` for the bucket `p`:
`i` runs upward from `start`; every property matching the bucket is
swapped down to position `start`.  Structural recursion on the explicit
bound `fuel`; since each step increments `i`, keeps the length unchanged
and stops as soon as `i` reaches the length, `fuel = length - i` makes
this exactly the source's inner `for` loop. -/
def sortPassAux (p : Nat) : Nat → List FlatProperty → Nat → Nat →
    List FlatProperty × Nat
  | 0, l, start, _ => (l, start)
  | fuel + 1, l, start, i =>
    if i < l.length then
      match l[i]? with
      | none => sortPassAux p fuel l start (i + 1)
      | some fp =>
        if fp.baseProperty.priority ≠ p ∧
            ¬ (fp.baseProperty.hasFlag flagChangesOften ∧ p = 64) then
          sortPassAux p fuel l start (i + 1)
        else if start = i then sortPassAux p fuel l (start + 1) (i + 1)
        else
          match l[start]? with
          | none => sortPassAux p fuel l start (i + 1)
          | some other =>
            sortPassAux p fuel ((l.set i other).set start fp) (start + 1) (i + 1)
    else (l, start)

/-- The inner loop of `ParserClass.sortProperties`, entered with `i = start`. -/
def sortPass (p : Nat) (l : List FlatProperty) (start : Nat) :
    List FlatProperty × Nat :=
  sortPassAux p (l.length - start) l start start

/-- The outer loop of `ParserClass.sortProperties` over the bucket list. -/
def sortPasses (l : List FlatProperty) (start : Nat) :
    List Nat → List FlatProperty
  | [] => l
  | p :: ps =>
    let r := sortPass p l start
    sortPasses r.1 r.2 ps

/-- `ParserClass.sortProperties` (the in-place sort, as a function). -/
def sortProperties (l : List FlatProperty) : List FlatProperty :=
  sortPasses l 0 (prioritySet l)

/-- A property matches the scan for bucket `p` when its declared priority
is `p`, or it is flagged "changes often" and `p` is 64 (the negation of
the `continue` condition in the source's inner loop). -/
def matchesPass (p : Nat) (fp : FlatProperty) : Prop :=
  fp.baseProperty.priority = p ∨
    (fp.baseProperty.hasFlag flagChangesOften ∧ p = 64)

instance (p : Nat) (fp : FlatProperty) : Decidable (matchesPass p fp) := by
  unfold matchesPass
  infer_instance

/-- The bucket a property actually lands in: the first visited priority
that matches it. -/
def effectiveBucket (fp : FlatProperty) : Nat :=
  if fp.baseProperty.hasFlag flagChangesOften then
    min fp.baseProperty.priority 64
  else fp.baseProperty.priority

/-- The ordering described by the spec's words for C1: a stable partition
in which every "changes often" property goes to the terminal bucket
together with priority 64, and all other properties are bucketed by their
declared priority, buckets ascending. -/
def claimBucket (fp : FlatProperty) : Nat :=
  if fp.baseProperty.hasFlag flagChangesOften then 64
  else fp.baseProperty.priority

/-- C1 as the spec words it (a stable sort on `claimBucket`; faithful to
the claim whenever all declared priorities are at most 64, as in the
counterexample below). -/
def sortPropertiesSpec (l : List FlatProperty) : List FlatProperty :=
  l.insertionSort (fun a b => claimBucket a ≤ claimBucket b)

/-- Concrete properties for the C1 counterexample. -/
def cexProp (nm : Nat) (priority : Nat) (flags : Nat) : FlatProperty :=
  { name := [nm],
    baseProperty :=
      { type := propTypeInt, name := [nm], flags := flags, priority := priority,
        value := some { low := 0, high := 0, bits := 8 } } }

def cexList : List FlatProperty :=
  [cexProp 97 3 0, cexProp 98 3 0, cexProp 99 1 (2 ^ 18)]

-- Facts about pass matching and the effective bucket.

theorem not_matchesPass_iff (p : Nat) (fp : FlatProperty) :
    (fp.baseProperty.priority ≠ p ∧
      ¬ (fp.baseProperty.hasFlag flagChangesOften ∧ p = 64))
    ↔ ¬ matchesPass p fp := by
  unfold matchesPass
  tauto

theorem matchesPass_effectiveBucket (fp : FlatProperty) :
    matchesPass (effectiveBucket fp) fp := by
  unfold matchesPass effectiveBucket
  by_cases h : fp.baseProperty.hasFlag flagChangesOften
  · rw [if_pos h]
    rcases le_or_lt fp.baseProperty.priority 64 with hle | hlt
    · exact Or.inl (by omega)
    · exact Or.inr ⟨h, by omega⟩
  · exact Or.inl (by rw [if_neg h])

theorem effectiveBucket_le {q : Nat} (fp : FlatProperty) (h : matchesPass q fp) :
    effectiveBucket fp ≤ q := by
  unfold matchesPass at h
  unfold effectiveBucket
  rcases h with h | ⟨hco, rfl⟩
  · subst h
    split <;> omega
  · rw [if_pos hco]
    omega

-- List helpers for the swap-based bucket sort.

theorem drop_eq_cons_of_getElem? {α : Type} {l : List α} {n : Nat} {x : α}
    (h : l[n]? = some x) : l.drop n = x :: l.drop (n + 1) := by
  obtain ⟨hlt, hx⟩ := List.getElem?_eq_some_iff.mp h
  rw [List.drop_eq_getElem_cons hlt, hx]

theorem take_eq_of_agree {α : Type} {l₁ l₂ : List α} {n : Nat}
    (hlen : l₁.length = l₂.length)
    (h : ∀ j, j < n → l₁[j]? = l₂[j]?) : l₁.take n = l₂.take n := by
  apply List.ext_getElem?
  intro j
  by_cases hj : j < n
  · rw [List.getElem?_take_of_lt hj, List.getElem?_take_of_lt hj, h j hj]
  · rw [List.getElem?_eq_none_iff.mpr, List.getElem?_eq_none_iff.mpr]
    · rw [List.length_take]
      omega
    · rw [List.length_take]
      omega

theorem cons_set_perm {α : Type} {b : α} (a : α) :
    ∀ (xs : List α) (k : Nat), xs[k]? = some b →
    List.Perm (b :: xs.set k a) (a :: xs) := by
  intro xs
  induction xs with
  | nil =>
    intro k h
    simp at h
  | cons y t ih =>
    intro k h
    cases k with
    | zero =>
      simp at h
      subst h
      exact List.Perm.swap _ _ _
    | succ k =>
      simp only [List.getElem?_cons_succ] at h
      have hperm := ih k h
      have s1 : List.Perm (b :: y :: t.set k a) (y :: b :: t.set k a) :=
        List.Perm.swap _ _ _
      have s2 : List.Perm (y :: b :: t.set k a) (y :: a :: t) := hperm.cons y
      have s3 : List.Perm (y :: a :: t) (a :: y :: t) := List.Perm.swap _ _ _
      show List.Perm (b :: y :: t.set k a) (a :: y :: t)
      exact (s1.trans s2).trans s3

theorem set_set_swap_perm {α : Type} :
    ∀ (l : List α) (i j : Nat) (a b : α), i < j →
    l[i]? = some a → l[j]? = some b →
    List.Perm ((l.set i b).set j a) l := by
  intro l
  induction l with
  | nil =>
    intro i j a b hij ha hb
    simp at ha
  | cons x t ih =>
    intro i j a b hij ha hb
    cases i with
    | zero =>
      simp only [List.getElem?_cons_zero, Option.some_inj] at ha
      subst ha
      obtain ⟨m, rfl⟩ : ∃ m, j = m + 1 := ⟨j - 1, by omega⟩
      simp only [List.getElem?_cons_succ] at hb
      show List.Perm (b :: t.set m x) (x :: t)
      exact cons_set_perm x t m hb
    | succ k =>
      obtain ⟨m, rfl⟩ : ∃ m, j = m + 1 := ⟨j - 1, by omega⟩
      simp only [List.getElem?_cons_succ] at ha hb
      show List.Perm (x :: ((t.set k b).set m a)) (x :: t)
      exact (ih k m a b (by omega) ha hb).cons x

/-- Invariants of one scan of the bucket sort: the length is preserved,
positions below `start` are untouched, positions `start..r.2` of the
result all match the bucket, positions from `r.2` on match nothing of
this bucket, and the region from `start` is permuted. -/
theorem sortPassAux_spec (p : Nat) :
    ∀ (fuel : Nat) (l : List FlatProperty) (start i : Nat),
    l.length ≤ i + fuel → start ≤ i → start ≤ l.length →
    (∀ j, start ≤ j → j < i → ∀ fp, l[j]? = some fp → ¬ matchesPass p fp) →
    (sortPassAux p fuel l start i).1.length = l.length ∧
    start ≤ (sortPassAux p fuel l start i).2 ∧
    (sortPassAux p fuel l start i).2 ≤ l.length ∧
    (∀ j, j < start → (sortPassAux p fuel l start i).1[j]? = l[j]?) ∧
    (∀ j fp, start ≤ j → j < (sortPassAux p fuel l start i).2 →
      (sortPassAux p fuel l start i).1[j]? = some fp → matchesPass p fp) ∧
    (∀ j fp, (sortPassAux p fuel l start i).2 ≤ j →
      (sortPassAux p fuel l start i).1[j]? = some fp → ¬ matchesPass p fp) ∧
    List.Perm ((sortPassAux p fuel l start i).1.drop start) (l.drop start) := by
  intro fuel
  induction fuel with
  | zero =>
    intro l start i hfuel hsi hsl hwin
    refine ⟨rfl, le_rfl, hsl, fun j hj => rfl, ?_, ?_, List.Perm.refl _⟩
    · intro j fp h1 h2
      have h2' : j < start := h2
      omega
    · intro j fp hj hfp
      have hj' : start ≤ j := hj
      have hfp' : l[j]? = some fp := hfp
      have hjlen : j < l.length := (List.getElem?_eq_some_iff.mp hfp').1
      exact hwin j hj' (by omega) fp hfp'
  | succ fuel ih =>
    intro l start i hfuel hsi hsl hwin
    simp only [sortPassAux]
    by_cases hlt : i < l.length
    · rw [if_pos hlt]
      rcases hgi : l[i]? with _ | fp
      · rw [List.getElem?_eq_none_iff] at hgi
        omega
      · simp only []
        by_cases hskip : fp.baseProperty.priority ≠ p ∧
            ¬ (fp.baseProperty.hasFlag flagChangesOften ∧ p = 64)
        · rw [if_pos hskip]
          have hnm : ¬ matchesPass p fp := (not_matchesPass_iff p fp).mp hskip
          exact ih l start (i + 1) (by omega) (by omega) hsl
            (fun j hj1 hj2 fp' hfp' => by
              by_cases hji : j = i
              · subst hji
                rw [hgi] at hfp'
                cases hfp'
                exact hnm
              · exact hwin j hj1 (by omega) fp' hfp')
        · rw [if_neg hskip]
          have hm : matchesPass p fp := by
            by_contra hc
            exact hskip ((not_matchesPass_iff p fp).mpr hc)
          by_cases hse : start = i
          · rw [if_pos hse]
            have hgs' : l[start]? = some fp := by rw [hse]; exact hgi
            obtain ⟨ih1, ih2, ih3, ih4, ih5, ih6, ih7⟩ :=
              ih l (start + 1) (i + 1) (by omega) (by omega) (by omega)
                (fun j hj1 hj2 fp' hfp' => by omega)
            refine ⟨ih1, by omega, ih3, fun j hj => ih4 j (by omega),
              fun j fp' hj1 hj2 hfp' => ?_, ih6, ?_⟩
            · by_cases hjs : j = start
              · rw [hjs, ih4 start (by omega), hgs'] at hfp'
                cases hfp'
                exact hm
              · exact ih5 j fp' (by omega) hj2 hfp'
            · have hs1 : (sortPassAux p fuel l (start + 1) (i + 1)).1[start]?
                  = some fp := by rw [ih4 start (by omega), hgs']
              rw [drop_eq_cons_of_getElem? hs1, drop_eq_cons_of_getElem? hgs']
              exact ih7.cons fp
          · rw [if_neg hse]
            have hsil : start < i := by omega
            rcases hgs : l[start]? with _ | other
            · rw [List.getElem?_eq_none_iff] at hgs
              omega
            · simp only []
              set l₂ := (l.set i other).set start fp with hl₂
              have hlen₂ : l₂.length = l.length := by simp [hl₂]
              have hg₂ : ∀ j, j ≠ start → j ≠ i → l₂[j]? = l[j]? := by
                intro j hjs hji
                rw [hl₂, List.getElem?_set_ne (by omega),
                  List.getElem?_set_ne (by omega)]
              have hg₂s : l₂[start]? = some fp := by
                rw [hl₂, List.getElem?_set_self (by simp; omega)]
              have hg₂i : l₂[i]? = some other := by
                rw [hl₂, List.getElem?_set_ne (by omega),
                  List.getElem?_set_self (by omega)]
              have hother : ¬ matchesPass p other :=
                hwin start le_rfl hsil other hgs
              obtain ⟨ih1, ih2, ih3, ih4, ih5, ih6, ih7⟩ :=
                ih l₂ (start + 1) (i + 1) (by omega) (by omega) (by omega)
                  (fun j hj1 hj2 fp' hfp' => by
                    by_cases hji : j = i
                    · subst hji
                      rw [hg₂i] at hfp'
                      cases hfp'
                      exact hother
                    · rw [hg₂ j (by omega) hji] at hfp'
                      exact hwin j (by omega) (by omega) fp' hfp')
              have hperm₂ : List.Perm l₂ l := by
                rw [hl₂, List.set_comm _ _ _ (by omega : i ≠ start)]
                exact set_set_swap_perm l start i other fp hsil hgs hgi
              have htake₂ : l₂.take start = l.take start :=
                take_eq_of_agree hlen₂ (fun j hj => hg₂ j (by omega) (by omega))
              have hregion₂ : List.Perm (l₂.drop start) (l.drop start) := by
                have hd₂ := List.take_append_drop start l₂
                have hd := List.take_append_drop start l
                rw [← hd₂, ← hd, htake₂] at hperm₂
                exact (List.perm_append_left_iff _).mp hperm₂
              refine ⟨by rw [ih1, hlen₂], by omega, by rw [← hlen₂]; exact ih3,
                fun j hj => ?_, fun j fp' hj1 hj2 hfp' => ?_, ih6, ?_⟩
              · rw [ih4 j (by omega), hg₂ j (by omega) (by omega)]
              · by_cases hjs : j = start
                · rw [hjs, ih4 start (by omega), hg₂s] at hfp'
                  cases hfp'
                  exact hm
                · exact ih5 j fp' (by omega) hj2 hfp'
              · have hr1s : (sortPassAux p fuel l₂ (start + 1) (i + 1)).1[start]?
                    = some fp := by rw [ih4 start (by omega), hg₂s]
                rw [drop_eq_cons_of_getElem? hr1s]
                have hstep : List.Perm
                    ((sortPassAux p fuel l₂ (start + 1) (i + 1)).1.drop (start + 1))
                    (l₂.drop (start + 1)) := ih7
                have hl₂drop : l₂.drop start = fp :: l₂.drop (start + 1) :=
                  drop_eq_cons_of_getElem? hg₂s
                have : List.Perm (fp :: (sortPassAux p fuel l₂ (start + 1) (i + 1)).1.drop (start + 1))
                    (l₂.drop start) := by
                  rw [hl₂drop]
                  exact hstep.cons fp
                exact this.trans hregion₂
    · rw [if_neg hlt]
      refine ⟨rfl, le_rfl, hsl, fun j hj => rfl, ?_, ?_, List.Perm.refl _⟩
      · intro j fp h1 h2
        have h2' : j < start := h2
        omega
      · intro j fp hj hfp
        have hj' : start ≤ j := hj
        have hfp' : l[j]? = some fp := hfp
        have hjlen : j < l.length := (List.getElem?_eq_some_iff.mp hfp').1
        exact hwin j hj' (by omega) fp hfp'

/-- Invariants of the outer bucket loop: the result is a permutation with
the already-sorted prefix growing by one constant-bucket segment per
visited priority. -/
theorem sortPasses_spec :
    ∀ (ps : List Nat) (l : List FlatProperty) (start : Nat),
    ps.Sorted (· ≤ ·) →
    start ≤ l.length →
    (∀ j k fp1 fp2, j < k → k < start → l[j]? = some fp1 → l[k]? = some fp2 →
      effectiveBucket fp1 ≤ effectiveBucket fp2) →
    (∀ j fp, j < start → l[j]? = some fp → ∀ q ∈ ps, effectiveBucket fp ≤ q) →
    (∀ j fp, start ≤ j → l[j]? = some fp → ∀ q, matchesPass q fp → q ∈ ps) →
    List.Perm (sortPasses l start ps) l ∧
    (∀ (j k : Nat) (fp1 fp2 : FlatProperty), j < k →
      (sortPasses l start ps)[j]? = some fp1 →
      (sortPasses l start ps)[k]? = some fp2 →
      effectiveBucket fp1 ≤ effectiveBucket fp2) := by
  intro ps
  induction ps with
  | nil =>
    intro l start hsorted hstart hpre1 hpre2 hreg
    have hempty : l.length ≤ start := by
      by_contra hc
      push_neg at hc
      rcases hfp : l[start]? with _ | fp
      · rw [List.getElem?_eq_none_iff] at hfp
        omega
      · exact absurd
          (hreg start fp le_rfl hfp fp.baseProperty.priority (Or.inl rfl))
          (List.not_mem_nil _)
    refine ⟨List.Perm.refl _, fun j k fp1 fp2 hjk hj hk => ?_⟩
    have hklen : k < l.length := (List.getElem?_eq_some_iff.mp hk).1
    exact hpre1 j k fp1 fp2 hjk (by omega) hj hk
  | cons p rest ihp =>
    intro l start hsorted hstart hpre1 hpre2 hreg
    obtain ⟨c1, c2, c3, c4, c5, c6, c7⟩ :=
      sortPassAux_spec p (l.length - start) l start start (by omega) le_rfl hstart
        (fun j h1 h2 fp hfp => by omega)
    simp only [sortPasses, sortPass]
    set r := sortPassAux p (l.length - start) l start start with hrdef
    have hrestLe : ∀ q ∈ rest, p ≤ q := (List.sorted_cons.mp hsorted).1
    have hrestSorted := (List.sorted_cons.mp hsorted).2
    have hmem : ∀ j fp, start ≤ j → r.1[j]? = some fp →
        ∃ m, start ≤ m ∧ l[m]? = some fp := by
      intro j fp hj hfp
      have h1 : fp ∈ r.1.drop start := by
        rw [List.mem_iff_getElem?]
        refine ⟨j - start, ?_⟩
        rw [List.getElem?_drop, show start + (j - start) = j by omega]
        exact hfp
      have h2 : fp ∈ l.drop start := (c7.mem_iff).mp h1
      rw [List.mem_iff_getElem?] at h2
      obtain ⟨m, hm⟩ := h2
      rw [List.getElem?_drop] at hm
      exact ⟨start + m, by omega, hm⟩
    have hseg : ∀ j fp, start ≤ j → j < r.2 → r.1[j]? = some fp →
        effectiveBucket fp = p := by
      intro j fp hj1 hj2 hfp
      have hmatch := c5 j fp hj1 hj2 hfp
      obtain ⟨m, hm1, hm2⟩ := hmem j fp hj1 hfp
      have hsub := hreg m fp hm1 hm2
      have hle : effectiveBucket fp ≤ p := effectiveBucket_le fp hmatch
      have hself := hsub (effectiveBucket fp) (matchesPass_effectiveBucket fp)
      rcases List.mem_cons.mp hself with h | h
      · omega
      · have := hrestLe _ h
        omega
    have htake : r.1.take start = l.take start := take_eq_of_agree c1 (fun j hj => c4 j hj)
    have hfull : List.Perm r.1 l := by
      have e1 := List.take_append_drop start r.1
      have e2 := List.take_append_drop start l
      rw [← e1, ← e2, htake]
      exact (List.perm_append_left_iff _).mpr c7
    have hp1' : ∀ j k fp1 fp2, j < k → k < r.2 → r.1[j]? = some fp1 →
        r.1[k]? = some fp2 → effectiveBucket fp1 ≤ effectiveBucket fp2 := by
      intro j k fp1 fp2 hjk hk hj hk2
      by_cases hkstart : k < start
      · rw [c4 j (by omega)] at hj
        rw [c4 k (by omega)] at hk2
        exact hpre1 j k fp1 fp2 hjk hkstart hj hk2
      · have hk3 : effectiveBucket fp2 = p := hseg k fp2 (by omega) hk hk2
        by_cases hjstart : j < start
        · rw [c4 j (by omega)] at hj
          have := hpre2 j fp1 hjstart hj p (List.mem_cons_self p rest)
          omega
        · have hj3 : effectiveBucket fp1 = p :=
            hseg j fp1 (by omega) (by omega) hj
          omega
    have hp2' : ∀ j fp, j < r.2 → r.1[j]? = some fp → ∀ q ∈ rest,
        effectiveBucket fp ≤ q := by
      intro j fp hj hfp q hq
      by_cases hjstart : j < start
      · rw [c4 j hjstart] at hfp
        exact hpre2 j fp hjstart hfp q (List.mem_cons_of_mem p hq)
      · have h1 := hseg j fp (by omega) hj hfp
        have h2 := hrestLe q hq
        omega
    have hreg' : ∀ j fp, r.2 ≤ j → r.1[j]? = some fp → ∀ q, matchesPass q fp →
        q ∈ rest := by
      intro j fp hj hfp q hq
      obtain ⟨m, hm1, hm2⟩ := hmem j fp (by omega) hfp
      have hsub := hreg m fp hm1 hm2 q hq
      rcases List.mem_cons.mp hsub with h | h
      · subst h
        exact absurd hq (c6 j fp hj hfp)
      · exact h
    obtain ⟨d1, d2⟩ := ihp r.1 r.2 hrestSorted (by rw [c1]; exact c3) hp1' hp2' hreg'
    exact ⟨d1.trans hfull, d2⟩

/-- C1 counterexample: on the three flat properties with declared
priorities 3, 3, 1 where the third is flagged "changes often",
`ParserClass.sortProperties` produces a different order than the claim's
stable, changes-often-to-terminal-bucket partition.  The code places the
changes-often property in its own priority-1 bucket (first), and the two
priority-3 properties end up in swapped relative order - so both the
"terminal bucket regardless of declared priority" part and the stability
part of the claim fail on this input. -/
theorem sortProperties_claim_counterexample :
    sortProperties cexList ≠ sortPropertiesSpec cexList ∧
    (sortProperties cexList).map (fun e => e.name) = [[99], [98], [97]] ∧
    (sortPropertiesSpec cexList).map (fun e => e.name) = [[97], [98], [99]] := by
  refine ⟨?_, by decide, by decide⟩
  decide

/-- C1 (amended): `ParserClass.sortProperties` returns a permutation of
its input grouped into buckets visited in ascending order, where a
property's bucket is the first visited priority matching it: its own
declared priority, or 64 for a "changes often" property whose priority
exceeds 64 (`effectiveBucket`).  Within a bucket the input order is not
preserved in general (the swap-based partition is not stable). -/
theorem sortProperties_perm_grouped (l : List FlatProperty) :
    List.Perm (sortProperties l) l ∧
    ((sortProperties l).map effectiveBucket).Sorted (· ≤ ·) := by
  have hps : (prioritySet l).Sorted (fun a b => a ≤ b) := by
    unfold prioritySet
    exact List.Pairwise.sublist (List.dedup_sublist _)
      (List.sorted_insertionSort _ _)
  have hmemps : ∀ fp ∈ l, ∀ q, matchesPass q fp → q ∈ prioritySet l := by
    intro fp hfp q hq
    unfold prioritySet
    rw [List.mem_dedup, (List.perm_insertionSort _ _).mem_iff]
    rcases hq with h | ⟨-, h⟩
    · exact List.mem_append_left _ (List.mem_map.mpr ⟨fp, hfp, h⟩)
    · subst h
      exact List.mem_append_right _ (List.mem_singleton.mpr rfl)
  obtain ⟨hperm, hsort⟩ := sortPasses_spec (prioritySet l) l 0 hps (by omega)
    (fun j k fp1 fp2 hjk hk hj hk2 => by omega)
    (fun j fp hj hfp q hq => by omega)
    (fun j fp hj hfp q hq =>
      hmemps fp (by rw [List.mem_iff_getElem?]; exact ⟨j, hfp⟩) q hq)
  refine ⟨hperm, ?_⟩
  rw [List.Sorted, List.pairwise_iff_getElem]
  intro a b ha hb hab
  rw [List.length_map] at ha hb
  rw [List.getElem_map, List.getElem_map]
  exact hsort a b _ _ hab (List.getElem?_eq_getElem ha) (List.getElem?_eq_getElem hb)

-- Schema flattening (ParserClass.gatherProperties / iterateProperties).

/-- `ParserClass`: a server class with its flattened property list. -/
structure ParserClass where
  serverClass : ServerClass
  flatProperties : List FlatProperty
  deriving DecidableEq, Repr

/-- `ExcludePair`: a `(source table name, excluded property name)` pair. -/
structure ExcludePair where
  fromName : List Nat
  exclude : List Nat
  deriving DecidableEq, Repr

/-- `ExcludePairSet.has`: linear scan over the first `max` elements; the
JS `if (!max)` check treats both a missing argument and 0 as "use the
full length". -/
def epsHas (s : List ExcludePair) (e : ExcludePair) (maxArg : Option Nat) : Bool :=
  let m := match maxArg with
    | none => s.length
    | some 0 => s.length
    | some m => m
  (List.range m).any fun i =>
    match s[i]? with
    | some curr => curr.fromName == e.fromName && curr.exclude == e.exclude
    | none => false

/-- `ExcludePairSet.add`. -/
def epsAdd (s : List ExcludePair) (e : ExcludePair) : List ExcludePair :=
  if epsHas s e none then s else s ++ [e]

/-- `ExcludePairSet.union`: `max` is captured before the loop, so newly
pushed elements are not checked against each other except through the
`!max` quirk when the receiver started empty. -/
def epsUnion (s other : List ExcludePair) : List ExcludePair :=
  let m := s.length
  other.foldl (fun acc e => if epsHas acc e (some m) then acc else acc ++ [e]) s

/-- Lookup of `demo.dataTables.get(name)` (a name-keyed `Map`). -/
def findTable (dataTables : List DataTable) (nm : List Nat) : Option DataTable :=
  dataTables.find? (fun t => t.name == nm)

/-- `ParserClass.gatherExcludes`: recursively gathers the exclusion set
of a table; `fuel` bounds the table-graph depth (the JS recursion does
not terminate on a cyclic schema). -/
def gatherExcludes : Nat → List DataTable → DataTable → List ExcludePair
  | 0, _, _ => []
  | fuel + 1, dataTables, table =>
    table.properties.foldl
      (fun excludes property =>
        match property.excludeName with
        | none => excludes
        | some excludeName =>
          if property.type = propTypeDataTable then
            match findTable dataTables excludeName with
            | none => excludes
            | some excludeTable =>
              epsUnion excludes (gatherExcludes fuel dataTables excludeTable)
          else if property.hasFlag flagExclude then
            epsAdd excludes ⟨excludeName, property.name⟩
          else excludes)
      []

/-- The tail of `ParserClass.gatherProperties` after its
`iterateProperties` call: push a fresh `ParserClass` when the table id is
the next free slot, then append the collected flat properties to the
class at that id (a missing id is warned about and left unchanged). -/
def gatherPost (parsedTable : List ParserClass) (flat : List FlatProperty)
    (sc : ServerClass) : List ParserClass :=
  let parsedTable :=
    if sc.tableID = parsedTable.length
    then parsedTable ++ [ParserClass.mk sc []]
    else parsedTable
  match parsedTable[sc.tableID]? with
  | none => parsedTable
  | some pc =>
    parsedTable.set sc.tableID
      { pc with flatProperties := pc.flatProperties ++ flat }

/-- JS `table.properties[i - 1]`: index -1 reads `undefined`. -/
def jsGetPred (l : List DataTableProperty) (i : Nat) :
    Option DataTableProperty :=
  if i = 0 then none else l[i - 1]?

/-- One iteration of the `ParserClass.iterateProperties` loop at index
`i`.  `recur` performs the collapsible-table recursion and `grecur` the
non-collapsible `gatherProperties` recursion (both are instantiated with
the fueled recursive calls in `iterateProperties`). -/
def iterPropsStep
    (recur : List ParserClass → List ExcludePair → DataTable → ServerClass →
      List FlatProperty → List Nat → List ParserClass × List FlatProperty)
    (grecur : List ParserClass → List ExcludePair → DataTable → ServerClass →
      List Nat → List ParserClass)
    (dataTables : List DataTable) (excludes : List ExcludePair)
    (table : DataTable) (sc : ServerClass) (pre : List Nat)
    (acc : List ParserClass × List FlatProperty) (i : Nat) :
    List ParserClass × List FlatProperty :=
  match table.properties[i]? with
  | none => acc
  | some property =>
    if property.hasFlag flagExclude ∨ property.hasFlag flagInsideArray ∨
        epsHas excludes ⟨table.name, property.name⟩ none then acc
    else if property.type = propTypeDataTable then
      match property.excludeName with
      | none => acc
      | some excludeName =>
        match findTable dataTables excludeName with
        | none => acc
        | some excludeTable =>
          if property.hasFlag flagCollapsible then
            recur acc.1 excludes excludeTable sc acc.2 pre
          else
            let newPrefix :=
              if property.name.length > 0 then property.name ++ [46] else []
            (grecur acc.1 excludes excludeTable sc newPrefix, acc.2)
    else
      let prefixedName := pre ++ property.name
      if property.type ≠ propTypeArray then
        (acc.1, acc.2 ++ [FlatProperty.mk prefixedName property none])
      else
        match jsGetPred table.properties i with
        | none => acc
        | some prevProp =>
          (acc.1, acc.2 ++ [FlatProperty.mk prefixedName property (some prevProp)])

/-- `ParserClass.iterateProperties`: the loop over a table's property
rows; `fuel` bounds the nested-table recursion depth exactly as in
`gatherExcludes`. -/
def iterateProperties : Nat → List DataTable → List ParserClass →
    List ExcludePair → DataTable → ServerClass → List FlatProperty →
    List Nat → List ParserClass × List FlatProperty
  | 0, _, parsedTable, _, _, _, flat, _ => (parsedTable, flat)
  | fuel + 1, dataTables, parsedTable, excludes, table, sc, flat, pre =>
    (List.range table.properties.length).foldl
      (iterPropsStep
        (fun pt ex t s f p => iterateProperties fuel dataTables pt ex t s f p)
        (fun pt ex t s p =>
          let r := iterateProperties fuel dataTables pt ex t s [] p
          gatherPost r.1 r.2 s)
        dataTables excludes table sc pre)
      (parsedTable, flat)

/-- `ParserClass.gatherProperties`: iterate the table, then merge the
collected flat list into the parsed-class table. -/
def gatherProperties (fuel : Nat) (dataTables : List DataTable)
    (parsedTable : List ParserClass) (excludes : List ExcludePair)
    (table : DataTable) (sc : ServerClass) (pre : List Nat) :
    List ParserClass :=
  let r := iterateProperties fuel dataTables parsedTable excludes table sc [] pre
  gatherPost r.1 r.2 sc

/-- C6: during flattening, an array-typed property (that passes the
exclusion/inside-array skip checks) is paired with the definition at the
immediately preceding position of the same source table - pairing is
purely positional (`jsGetPred`, the JS read of `properties[i-1]`), never
by name - and an array property at position 0 (no preceding definition)
is skipped, contributing nothing.  The first conjunct ties the step
function to `ParserClass.iterateProperties`, whose loop body it is. -/
theorem iterateProperties_array_pairing
    (recur : List ParserClass → List ExcludePair → DataTable → ServerClass →
      List FlatProperty → List Nat → List ParserClass × List FlatProperty)
    (grecur : List ParserClass → List ExcludePair → DataTable → ServerClass →
      List Nat → List ParserClass)
    (dataTables : List DataTable) (excludes : List ExcludePair)
    (table : DataTable) (sc : ServerClass) (pre : List Nat)
    (acc : List ParserClass × List FlatProperty) (i : Nat)
    (p : DataTableProperty)
    (hp : table.properties[i]? = some p)
    (htype : p.type = propTypeArray)
    (hex : p.hasFlag flagExclude = false)
    (hia : p.hasFlag flagInsideArray = false)
    (hskip : epsHas excludes ⟨table.name, p.name⟩ none = false) :
    (∀ fuel pt flat,
      iterateProperties (fuel + 1) dataTables pt excludes table sc flat pre
        = (List.range table.properties.length).foldl
            (iterPropsStep
              (fun pt ex t s f pr => iterateProperties fuel dataTables pt ex t s f pr)
              (fun pt ex t s pr =>
                let r := iterateProperties fuel dataTables pt ex t s [] pr
                gatherPost r.1 r.2 s)
              dataTables excludes table sc pre)
            (pt, flat)) ∧
    (∀ prevProp, jsGetPred table.properties i = some prevProp →
      iterPropsStep recur grecur dataTables excludes table sc pre acc i
        = (acc.1, acc.2 ++ [FlatProperty.mk (pre ++ p.name) p (some prevProp)])) ∧
    (jsGetPred table.properties i = none →
      iterPropsStep recur grecur dataTables excludes table sc pre acc i = acc) ∧
    (jsGetPred table.properties i = none ↔ i = 0) := by
  have hiLen : i < table.properties.length := (List.getElem?_eq_some_iff.mp hp).1
  have harr : ¬ (p.type = propTypeDataTable) := by
    rw [htype]
    decide
  have hskipcond : ¬ (p.hasFlag flagExclude = true ∨ p.hasFlag flagInsideArray = true ∨
      epsHas excludes ⟨table.name, p.name⟩ none = true) := by
    simp [hex, hia, hskip]
  refine ⟨fun fuel pt flat => rfl, ?_, ?_, ?_⟩
  · intro prevProp hprev
    simp only [iterPropsStep, hp, hskipcond, if_false, htype, hprev]
    simp [propTypeArray, propTypeDataTable]
  · intro hnone
    simp only [iterPropsStep, hp, hskipcond, if_false, htype, hnone]
    simp [propTypeArray, propTypeDataTable]
  · constructor
    · intro hnone
      by_contra hi
      rw [jsGetPred, if_neg hi, List.getElem?_eq_none_iff] at hnone
      omega
    · intro hi
      rw [jsGetPred, if_pos hi]

/-- Concrete inputs for the C6 witness. -/
def cexElemProp : DataTableProperty :=
  { type := propTypeInt, name := [101], flags := 0, priority := 0,
    value := some { low := 0, high := 0, bits := 4 } }

def cexArrayProp : DataTableProperty :=
  { type := propTypeArray, name := [97], flags := 0, priority := 0,
    arrayElements := some 3 }

def cexTable : DataTable :=
  { needsDecoder := false, name := [116],
    properties := [cexElemProp, cexArrayProp] }

def cexSC : ServerClass := { tableID := 0, className := [], tableName := [116] }

def cexRecur : List ParserClass → List ExcludePair → DataTable → ServerClass →
    List FlatProperty → List Nat → List ParserClass × List FlatProperty :=
  fun pt _ _ _ f _ => (pt, f)

def cexGrecur : List ParserClass → List ExcludePair → DataTable → ServerClass →
    List Nat → List ParserClass :=
  fun pt _ _ _ _ => pt

/-- Witness for C6: in a two-row table whose second row is array-typed,
the loop step pairs the array row with row 0 by position. -/
theorem iterateProperties_array_pairing_witness :
    cexTable.properties[1]? = some cexArrayProp ∧
    iterPropsStep cexRecur cexGrecur [] [] cexTable cexSC []
        (([], []) : List ParserClass × List FlatProperty) 1
      = ((([], []) : List ParserClass × List FlatProperty).1,
          (([], []) : List ParserClass × List FlatProperty).2
          ++ [FlatProperty.mk ([] ++ cexArrayProp.name) cexArrayProp
                (some cexElemProp)]) :=
  ⟨by decide,
    (iterateProperties_array_pairing cexRecur cexGrecur [] [] cexTable cexSC []
      (([], []) : List ParserClass × List FlatProperty) 1 cexArrayProp
      (by decide) (by decide) (by decide) (by decide)
      (by decide)).2.1 cexElemProp (by decide)⟩

-- Property codec (EntityProperty decode side, Entity.ts).

/-- The `Vector` class (x, y, z rationals, defaulting to 0). -/
structure Vec where
  x : ℚ := 0
  y : ℚ := 0
  z : ℚ := 0
  deriving DecidableEq, Repr

/-- An entity property value (`EntityPropertyValueType`). -/
inductive EPValue where
  | num (q : ℚ)
  | str (s : List Nat)
  | vec (v : Vec)
  | numArr (l : List ℚ)
  | strArr (l : List (List Nat))
  | vecArr (l : List Vec)
  deriving DecidableEq, Repr

/-- `EntityProperty.decodeInt`. -/
def decodeInt (p : DataTableProperty) (b : DemoBuffer) :
    Except String (ℚ × DemoBuffer) :=
  match p.value with
  | none => .error "Invalid property definition."
  | some v =>
    if p.hasFlag flagUnsigned then
      let (x, b) := b.nextInt v.bits
      .ok ((x : ℚ), b)
    else
      let (x, b) := b.nextSignedInt v.bits
      .ok ((x : ℚ), b)

/-- `EntityProperty.decodeFloat`: the flag decision tree.  The fallback
divisor is JS `(1 << bits) - 1`, i.e. `jsShlOne bits - 1`; in ℚ a
division by zero (bits ≡ 0 mod 32) yields 0 where JS yields
Infinity/NaN - no claim touches that case. -/
def decodeFloat (p : DataTableProperty) (b : DemoBuffer) :
    Except String (ℚ × DemoBuffer) :=
  match p.value with
  | none => .error "Invalid property definition."
  | some v =>
    if p.hasFlag flagCoord then
      let (hasInt, b) := b.nextBit
      let (hasFrac, b) := b.nextBit
      if hasInt ≠ 0 ∨ hasFrac ≠ 0 then
        let (sign, b) := b.nextBit
        let (intPart, b) := if hasInt ≠ 0 then b.nextInt 14 else (0, b)
        let (fracPart, b) := if hasFrac ≠ 0 then b.nextInt 5 else (0, b)
        let value : ℚ :=
          (if hasInt ≠ 0 then (intPart : ℚ) + 1 else 0) +
          (if hasFrac ≠ 0 then (fracPart : ℚ) * (1 / 32) else 0)
        .ok (if sign ≠ 0 then -value else value, b)
      else .ok (0, b)
    else if p.hasFlag flagCoordMp ∨ p.hasFlag flagCoordMpLp ∨
        p.hasFlag flagCoordMpInt then
      let (inBounds, b) := b.nextBit
      if p.hasFlag flagCoordMpInt then
        let (hasVal, b) := b.nextBit
        if hasVal ≠ 0 then
          let (sign, b) := b.nextBit
          let (x, b) := if inBounds ≠ 0 then b.nextInt 11 else b.nextInt 14
          let value : ℚ := (x : ℚ) + 1
          .ok (if sign ≠ 0 then -value else value, b)
        else .ok (0, b)
      else
        let (intVal0, b) := b.nextBit
        let (sign, b) := b.nextBit
        let (intVal, b) :=
          if intVal0 ≠ 0 then
            let (x, b) := if inBounds ≠ 0 then b.nextInt 11 else b.nextInt 14
            ((x : ℚ) + 1, b)
          else ((intVal0 : ℚ), b)
        let lp := p.hasFlag flagCoordMpLp
        let (fractVal, b) := b.nextInt (if lp then 3 else 5)
        let value := intVal + (fractVal : ℚ) * (1 / (if lp then 8 else 32))
        .ok (if sign ≠ 0 then -value else value, b)
    else if p.hasFlag flagNoScale then
      let (x, b) := b.nextFloat
      .ok (x, b)
    else if p.hasFlag flagNormal then
      let (sign, b) := b.nextBit
      let (x, b) := b.nextInt 11
      let value : ℚ := (x : ℚ) * (1 / 2047)
      .ok (if sign ≠ 0 then -value else value, b)
    else if p.hasFlag flagCellCoord ∨ p.hasFlag flagCellCoordLp ∨
        p.hasFlag flagCellCoordInt then
      let (integer, b) := b.nextInt v.bits
      if p.hasFlag flagCellCoordInt then .ok ((integer : ℚ), b)
      else
        let lp := p.hasFlag flagCellCoordLp
        let (fraction, b) := b.nextInt (if lp then 3 else 5)
        .ok ((integer : ℚ) + (fraction : ℚ) * (1 / (if lp then 8 else 32)), b)
    else
      let (dwInterp, b) := b.nextInt v.bits
      let value := (dwInterp : ℚ) / ((jsShlOne v.bits : ℚ) - 1)
      .ok (v.low + (v.high - v.low) * value, b)

/-- `EntityProperty.decodeVector3`.  Under the `Normal` flag, JS
`Math.sqrt` (an f64 operation) is modelled by `Rat.sqrt`; no claim
depends on the numeric value of that branch. -/
def decodeVector3 (p : DataTableProperty) (b : DemoBuffer) :
    Except String (Vec × DemoBuffer) := do
  let (x, b) ← decodeFloat p b
  let (y, b) ← decodeFloat p b
  if p.hasFlag flagNormal then
    let (sign, b) := b.nextBit
    let distSqr := x * x + y * y
    let z0 : ℚ := if distSqr < 1 then Rat.sqrt (1 - distSqr) else 0
    .ok ({ x := x, y := y, z := if sign ≠ 0 then -z0 else z0 }, b)
  else
    let (z, b) ← decodeFloat p b
    .ok ({ x := x, y := y, z := z }, b)

/-- `EntityProperty.decodeVector2` (z stays 0). -/
def decodeVector2 (p : DataTableProperty) (b : DemoBuffer) :
    Except String (Vec × DemoBuffer) := do
  let (x, b) ← decodeFloat p b
  let (y, b) ← decodeFloat p b
  .ok ({ x := x, y := y }, b)

/-- `EntityProperty.decodeString`: 9-bit length prefix, then that many
8-bit characters. -/
def decodeString (_p : DataTableProperty) (b : DemoBuffer) :
    Except String (List Nat × DemoBuffer) :=
  let (length, b) := b.nextInt 9
  let (s, b) := b.nextString (length * 8)
  .ok (s, b)

/-- Fixed-count element loop used by `decodeArray`'s switch branches. -/
def decodeN {α : Type} (dec : DemoBuffer → Except String (α × DemoBuffer)) :
    Nat → DemoBuffer → Except String (List α × DemoBuffer)
  | 0, b => .ok ([], b)
  | n + 1, b => do
    let (x, b) ← dec b
    let (xs, b) ← decodeN dec n b
    .ok (x :: xs, b)

/-- `EntityProperty.decodeArray`. -/
def decodeArray (p : DataTableProperty) (pArr : Option DataTableProperty)
    (b : DemoBuffer) : Except String (EPValue × DemoBuffer) :=
  match pArr with
  | none => .error "Invalid array property definition."
  | some ap =>
    match p.arrayElements with
    | none => .error "Array property definition missing element count."
    | some n =>
      let countBits := (highestBitIndex n + 1).toNat
      let (count, b) := b.nextInt countBits
      if ap.type = propTypeInt then do
        let (l, b) ← decodeN (decodeInt ap) count b
        .ok (.numArr l, b)
      else if ap.type = propTypeFloat then do
        let (l, b) ← decodeN (decodeFloat ap) count b
        .ok (.numArr l, b)
      else if ap.type = propTypeString then do
        let (l, b) ← decodeN (decodeString ap) count b
        .ok (.strArr l, b)
      else if ap.type = propTypeVector3 then do
        let (l, b) ← decodeN (decodeVector3 ap) count b
        .ok (.vecArr l, b)
      else if ap.type = propTypeVector2 then do
        let (l, b) ← decodeN (decodeVector2 ap) count b
        .ok (.vecArr l, b)
      else .error "Unknown array property type."

/-- One decoded entity property with the bit span it occupied
(`EntityProperty`). -/
structure EntityProp where
  index : Nat
  property : FlatProperty
  bufferFrom : Nat
  bufferSize : Nat
  value : EPValue
  deriving DecidableEq, Repr

/-- `EntityProperty.fromDemo`: decode one property by its declared type,
recording the consumed bit span. -/
def entityPropertyFromDemo (b : DemoBuffer) (index : Nat) (fp : FlatProperty) :
    Except String (EntityProp × DemoBuffer) := do
  let bufferFrom := b.cursor
  let base := fp.baseProperty
  let (value, b') ←
    if base.type = propTypeInt then do
      let (x, b') ← decodeInt base b
      pure (EPValue.num x, b')
    else if base.type = propTypeFloat then do
      let (x, b') ← decodeFloat base b
      pure (EPValue.num x, b')
    else if base.type = propTypeVector3 then do
      let (x, b') ← decodeVector3 base b
      pure (EPValue.vec x, b')
    else if base.type = propTypeVector2 then do
      let (x, b') ← decodeVector2 base b
      pure (EPValue.vec x, b')
    else if base.type = propTypeString then do
      let (x, b') ← decodeString base b
      pure (EPValue.str x, b')
    else if base.type = propTypeArray then
      decodeArray base fp.baseArrayProperty b
    else .error "Unknown property type."
  .ok (⟨index, fp, bufferFrom, b'.cursor - bufferFrom, value⟩, b')

/-- Loop body of `EntityProperty.readProperties`: reads delta-encoded
property indices until the -1 sentinel; each step strictly increases the
index and stops once it reaches the flat-property count, so
`flatProperties.length + 1` fuel makes this the source's `while` loop. -/
def readPropertiesAux (flatProperties : List FlatProperty) (newScheme : Bool) :
    Nat → Int → List EntityProp → DemoBuffer →
    Except String (List EntityProp × DemoBuffer)
  | 0, _, props, b => .ok (props, b)
  | fuel + 1, i, props, b =>
    let (i', b) := b.nextPropertyIndex i newScheme
    if i' = -1 then .ok (props, b)
    else if i' < 0 ∨ (flatProperties.length : Int) ≤ i' then
      .ok (props, b)
    else
      match flatProperties[i'.toNat]? with
      | none => .ok (props, b)
      | some fp => do
        let (ep, b) ← entityPropertyFromDemo b i'.toNat fp
        readPropertiesAux flatProperties newScheme fuel i' (props ++ [ep]) b

/-- `EntityProperty.readProperties`. -/
def readProperties (flatProperties : List FlatProperty) (b : DemoBuffer) :
    Except String (List EntityProp × DemoBuffer) :=
  let (ns, b) := b.nextBit
  readPropertiesAux flatProperties (ns ≠ 0) (flatProperties.length + 1) (-1) [] b

/-- C5 (amended): for a float-typed property definition carrying none of
the special encoding flags and a declared width of 1..30 bits, decoding
reads exactly `bits` unsigned bits as a raw value `r` and returns
`low + (high - low) * r / (2^bits - 1)`.  (At widths 31 and 32 the JS
`(1 << bits) - 1` divisor wraps; see the counterexample.) -/
theorem decodeFloat_fallback (p : DataTableProperty) (b : DemoBuffer)
    (v : DTValue) (hv : p.value = some v)
    (hc : p.hasFlag flagCoord = false)
    (hmp : p.hasFlag flagCoordMp = false)
    (hmplp : p.hasFlag flagCoordMpLp = false)
    (hmpint : p.hasFlag flagCoordMpInt = false)
    (hns : p.hasFlag flagNoScale = false)
    (hn : p.hasFlag flagNormal = false)
    (hcc : p.hasFlag flagCellCoord = false)
    (hcclp : p.hasFlag flagCellCoordLp = false)
    (hccint : p.hasFlag flagCellCoordInt = false)
    (hbits1 : 1 ≤ v.bits) (hbits2 : v.bits ≤ 30) :
    decodeFloat p b = .ok
      (v.low + (v.high - v.low) *
        ((b.getInt b.cursor v.bits : ℚ) / (2 ^ v.bits - 1)),
       { b with cursor := b.cursor + v.bits }) := by
  have hshl : jsShlOne v.bits = 2 ^ v.bits := by
    rw [jsShlOne, Nat.mod_eq_of_lt (by omega), if_neg (by omega)]
  have hcast : ((jsShlOne v.bits : Int) : ℚ) = (2 : ℚ) ^ v.bits := by
    rw [hshl]
    push_cast
    ring
  simp only [decodeFloat, hv, hc, hmp, hmplp, hmpint, hns, hn, hcc, hcclp,
    hccint, DemoBuffer.nextInt, hcast]
  rfl

/-- The spec's C5 scenario property: Float, range [0, 100], 8 bits, no
special flags. -/
def scenarioFloatProp : DataTableProperty :=
  { type := propTypeFloat, name := [102], flags := 0, priority := 0,
    value := some { low := 0, high := 100, bits := 8 } }

/-- Witness for C5: the spec's scenario - raw encoded value 128 decodes
to 2560/51 = 50.196078..., within 1/1000 of 50.196. -/
theorem decodeFloat_fallback_witness :
    decodeFloat scenarioFloatProp (DemoBuffer.mk [128] 0)
      = .ok ((0 : ℚ) + (100 - 0) *
          (((DemoBuffer.mk [128] 0).getInt 0 8 : ℚ) / (2 ^ 8 - 1)),
          DemoBuffer.mk [128] 8) ∧
    (0 : ℚ) + (100 - 0) * (((DemoBuffer.mk [128] 0).getInt 0 8 : ℚ) / (2 ^ 8 - 1))
      = 2560 / 51 ∧
    |(2560 / 51 : ℚ) - 50196 / 1000| < 1 / 1000 := by
  have hget : (DemoBuffer.mk [128] 0).getInt 0 8 = 128 := by decide
  refine ⟨?_, ?_, ?_⟩
  · exact decodeFloat_fallback scenarioFloatProp (DemoBuffer.mk [128] 0)
      { low := 0, high := 100, bits := 8 } rfl (by decide) (by decide) (by decide)
      (by decide) (by decide) (by decide) (by decide) (by decide) (by decide)
      (by decide) (by decide)
  · rw [hget]
    norm_num
  · rw [abs_lt]
    constructor <;> norm_num

/-- A 31-bit-wide float property with no special flags, for the C5
counterexample. -/
def cexFloat31 : DataTableProperty :=
  { type := propTypeFloat, name := [102], flags := 0, priority := 0,
    value := some { low := 0, high := 1, bits := 31 } }

/-- C5 counterexample: at a declared width of 31 bits, the code divides
by JS `(1 << 31) - 1 = -(2^31) - 1`, so a raw value of 1 decodes to
`-1/2147483649` instead of the claim's `1/(2^31 - 1) = 1/2147483647`. -/
theorem decodeFloat_width31_counterexample :
    decodeFloat cexFloat31 (DemoBuffer.mk [1, 0, 0, 0] 0)
      = .ok (-(1 / 2147483649 : ℚ), DemoBuffer.mk [1, 0, 0, 0] 31) ∧
    (DemoBuffer.mk [1, 0, 0, 0] 0).getInt 0 31 = 1 ∧
    (0 : ℚ) + (1 - 0) * (((DemoBuffer.mk [1, 0, 0, 0] 0).getInt 0 31 : ℚ)
      / (2 ^ 31 - 1)) = 1 / 2147483647 ∧
    -(1 / 2147483649 : ℚ) ≠ 1 / 2147483647 := by
  have hget : (DemoBuffer.mk [1, 0, 0, 0] 0).getInt 0 31 = 1 := by decide
  have hval : cexFloat31.value = some { low := 0, high := 1, bits := 31 } := rfl
  have hflag : ∀ f, cexFloat31.hasFlag f = false := by
    intro f
    simp [cexFloat31, DataTableProperty.hasFlag]
  refine ⟨?_, hget, ?_, ?_⟩
  · simp only [decodeFloat, hval, hflag, Bool.false_eq_true, false_or, or_self,
      if_false, DemoBuffer.nextInt]
    rw [hget]
    norm_num [jsShlOne]
  · rw [hget]
    norm_num
  · norm_num

/-! ### Entity store (DemoBuffer.ts: `StaticBaseline`, `Entity`) -/

/-- JS `Math.round`: round half toward positive infinity. -/
def jsRound (q : ℚ) : Int := Int.floor (q + 1 / 2)

/-- JS `x % 1`: the fractional part left after truncation toward zero. -/
def jsFracPart (q : ℚ) : ℚ := q - (jsTrunc q : ℚ)

/-- JS array read `arr[i]` on an array with holes: out-of-range reads and
hole slots both give `undefined`. -/
def jsGetOpt {α : Type} (l : List (Option α)) (i : Nat) : Option α :=
  (l[i]?).getD none

/-- JS array write `arr[i] = v`: in range it overwrites the slot, beyond
the end it extends the array with holes up to index `i`. -/
def jsSetExtend {α : Type} (l : List (Option α)) (i : Nat) (v : Option α) :
    List (Option α) :=
  if i < l.length then l.set i v
  else l ++ (List.replicate (i - l.length) none ++ [v])

/-- JS `Array.isArray` on an entity property value. -/
def EPValue.isArray : EPValue → Bool
  | .numArr _ => true
  | .strArr _ => true
  | .vecArr _ => true
  | _ => false

/-- `EntityProperty.copyArrayProperty`: in the mutable source this clones
the object and its value array; values are compared structurally here, so
the clone is the property itself.  Throws on a non-array value. -/
def copyArrayProperty (ep : EntityProp) : Except String EntityProp :=
  if ep.value.isArray then .ok ep
  else .error "Tried to copy array of non-array property."

/-- `EntityProperty.updateArrayProperty` (`this` = `src`, argument =
`other`): copies `src`'s buffer span and value into the existing object
`other`, which keeps its own index and flat property. -/
def updateArrayProperty (src other : EntityProp) : Except String EntityProp :=
  if ¬ src.value.isArray then
    .error "Tried to update array from non-array property."
  else if ¬ other.value.isArray then
    .error "Tried to update array of non-array property."
  else
    .ok { other with bufferFrom := src.bufferFrom,
                     bufferSize := src.bufferSize, value := src.value }

/-- Static class baseline (`StaticBaseline`): per-table default entity
properties, indexed like a JS array with holes. -/
structure StaticBaseline where
  serverClass : ServerClass
  entityProperties : List (Option EntityProp)
  deriving DecidableEq, Repr

/-- Body of the `for (const from of entityProperties)` loop of
`StaticBaseline.updateBaseline` for one incoming property: an existing
array-valued slot is updated in place, otherwise the incoming property
(copied when array-valued) replaces the slot. -/
def updateBaselineStep (bl : StaticBaseline) (src : EntityProp) :
    Except String StaticBaseline :=
  let write (slot : EntityProp) : StaticBaseline :=
    { bl with entityProperties :=
        jsSetExtend bl.entityProperties src.index (some slot) }
  match jsGetOpt bl.entityProperties src.index with
  | some dst =>
    if dst.value.isArray then
      match updateArrayProperty src dst with
      | .error e => .error e
      | .ok dst' => .ok (write dst')
    else if src.value.isArray then
      match copyArrayProperty src with
      | .error e => .error e
      | .ok c => .ok (write c)
    else .ok (write src)
  | none =>
    if src.value.isArray then
      match copyArrayProperty src with
      | .error e => .error e
      | .ok c => .ok (write c)
    else .ok (write src)

/-- `StaticBaseline.updateBaseline` over the demo's baseline array:
fetches (or creates, sized `flatPropertyCount` with holes) the table's
baseline, then merges each incoming property at its index. -/
def updateBaseline (baselines : List (Option StaticBaseline))
    (serverClass : ServerClass) (entityProperties : List EntityProp)
    (flatPropertyCount : Nat) :
    Except String (List (Option StaticBaseline)) :=
  let id := serverClass.tableID
  let bl0 :=
    match jsGetOpt baselines id with
    | some bl => bl
    | none =>
      { serverClass := serverClass,
        entityProperties := List.replicate flatPropertyCount none }
  match entityProperties.foldlM updateBaselineStep bl0 with
  | .error e => .error e
  | .ok bl => .ok (jsSetExtend baselines id (some bl))

/-- A live entity (`Entity`).  `hasSource` models the optional `source`
back-reference to the demo, absent on artificial entities. -/
structure Entity where
  serverClass : ServerClass
  properties : List (Option EntityProp)
  serial : Nat
  index : Nat
  inPVS : Bool
  hasSource : Bool
  deriving DecidableEq, Repr

/-- `EntityDelta`: a property update against the entity at `index`. -/
structure EntityDelta where
  serverClass : ServerClass
  index : Nat
  properties : List EntityProp
  deriving DecidableEq, Repr

/-- `EntityEnterPVS`: an enter-visibility update. -/
structure EntityEnterPVS extends EntityDelta where
  serial : Nat
  isNew : Bool
  deriving DecidableEq, Repr

/-- `EntityLeavePVS`: a leave-visibility (or delete) update. -/
structure EntityLeavePVS where
  serverClass : ServerClass
  index : Nat
  doDelete : Bool
  deriving DecidableEq, Repr

/-- The slice of the `Demo` object the entity pipeline touches:
`demo.baselines` and `demo.state.entities` (the latter is `undefined`
until a full snapshot allocates it). -/
structure DemoState where
  baselines : List (Option StaticBaseline)
  entities : Option (List (Option Entity))
  deriving DecidableEq, Repr

/-- `Entity.fromBaseline`: copy the class baseline's properties into a
fresh entity (array-valued entries are deep-copied by the source; the
copy is value-identical, so the new property list equals the baseline's).
A missing baseline is replaced by a blank one, with a warning. -/
def Entity.fromBaseline (baselines : List (Option StaticBaseline))
    (serverClass : ServerClass) (serial index : Nat) :
    Entity × List (Option StaticBaseline) :=
  match jsGetOpt baselines serverClass.tableID with
  | some baseline =>
    (⟨serverClass, baseline.entityProperties, serial, index, true, true⟩,
     baselines)
  | none =>
    (⟨serverClass, [], serial, index, true, true⟩,
     jsSetExtend baselines serverClass.tableID (some ⟨serverClass, []⟩))

/-- Body of the `for (const property of delta.properties)` loop of
`Entity.applyDelta` for one delta property: array-valued incoming
properties update the existing slot object in place (or are copied into
an empty slot); everything else overwrites the slot. -/
def applyDeltaStep (props : List (Option EntityProp)) (property : EntityProp) :
    Except String (List (Option EntityProp)) :=
  let write (slot : EntityProp) : List (Option EntityProp) :=
    jsSetExtend props property.index (some slot)
  if property.value.isArray then
    match jsGetOpt props property.index with
    | none =>
      match copyArrayProperty property with
      | .error e => .error e
      | .ok c => .ok (write c)
    | some oldProperty =>
      match updateArrayProperty property oldProperty with
      | .error e => .error e
      | .ok old' => .ok (write old')
  else .ok (write property)

/-- `Entity.applyDelta`: fold the delta's properties into the entity
stored at the delta's index. -/
def Entity.applyDelta (st : DemoState) (delta : EntityDelta) :
    Except String DemoState :=
  match st.entities with
  | none => .error "Tried to parse entity update without entities."
  | some es =>
    match jsGetOpt es delta.index with
    | none => .error "Tried to apply delta to non-existent entity."
    | some entity =>
      match delta.properties.foldlM applyDeltaStep entity.properties with
      | .error e => .error e
      | .ok props =>
        .ok { st with entities := some (jsSetExtend es delta.index
                (some { entity with properties := props })) }

/-- `Entity.enterPVS`: on a new (slot empty or serial mismatch) update,
build a baseline entity and store it at the slot; otherwise reuse the
stored entity.  Either way the entity is marked in-PVS and the delta is
applied to it. -/
def Entity.enterPVS (st : DemoState) (update : EntityEnterPVS) :
    Except String DemoState :=
  if st.baselines.length = 0 then
    .error "Tried to parse entity update without baselines."
  else
    match st.entities with
    | none => .error "Tried to parse entity update without entities."
    | some es =>
      let (entityOpt, baselines, es) :=
        if update.isNew then
          let (e, bl) := Entity.fromBaseline st.baselines
            update.serverClass update.serial update.index
          (some e, bl, jsSetExtend es update.index (some e))
        else (jsGetOpt es update.index, st.baselines, es)
      match entityOpt with
      | none => .ok { st with baselines := baselines, entities := some es }
      | some entity =>
        let entity := { entity with inPVS := true }
        Entity.applyDelta
          { baselines := baselines,
            entities := some (jsSetExtend es update.index (some entity)) }
          update.toEntityDelta

/-- `Entity.leavePVS`: with the delete bit the slot is removed entirely
(JS `delete` leaves a hole, the array length is unchanged); otherwise the
entity is only marked out-of-PVS. -/
def Entity.leavePVS (st : DemoState) (update : EntityLeavePVS) :
    Except String DemoState :=
  match st.entities with
  | none => .error "Tried to parse entity update without entities."
  | some es =>
    if update.doDelete then
      .ok { st with entities := some (es.set update.index none) }
    else
      match jsGetOpt es update.index with
      | none => .ok st
      | some entity =>
        .ok { st with entities := some (jsSetExtend es update.index
                (some { entity with inPVS := false })) }

/-- Enter-PVS arm of `SvcPacketEntities` after the class id and serial
have been read and the parser class resolved (NetSvcMessage.ts 615-620):
`isNew` is true iff the stored slot is empty or holds a different serial;
then the delta properties are read and handed to `Entity.enterPVS`. -/
def enterPVSCase (st : DemoState) (pc : ParserClass) (index serial : Nat)
    (b : DemoBuffer) : Except String (DemoState × DemoBuffer) :=
  match st.entities with
  | none => .error "Cannot read an index of undefined entities."
  | some es =>
    let isNew : Bool :=
      match jsGetOpt es index with
      | none => true
      | some e => decide (e.serial ≠ serial)
    match readProperties pc.flatProperties b with
    | .error e => .error e
    | .ok (entityProperties, b) =>
      match Entity.enterPVS st
          { serverClass := pc.serverClass, index := index,
            properties := entityProperties, serial := serial,
            isNew := isNew } with
      | .error e => .error e
      | .ok st' => .ok (st', b)

/-- Writing a slot then reading it back gives the written value, also
when the write extended the array. -/
theorem jsGetOpt_jsSetExtend_self {α : Type} (l : List (Option α)) (i : Nat)
    (v : Option α) : jsGetOpt (jsSetExtend l i v) i = v := by
  unfold jsGetOpt jsSetExtend
  by_cases h : i < l.length
  · simp [h]
  · simp only [h, if_false]
    rw [List.getElem?_append_right (by omega)]
    rw [List.getElem?_append_right (by simp only [List.length_replicate]; omega)]
    simp only [List.length_replicate]
    rw [show i - l.length - (i - l.length) = 0 by omega]
    rfl

/-- Two writes to the same slot collapse to the second. -/
theorem jsSetExtend_jsSetExtend_self {α : Type} (l : List (Option α)) (i : Nat)
    (v w : Option α) :
    jsSetExtend (jsSetExtend l i v) i w = jsSetExtend l i w := by
  unfold jsSetExtend
  by_cases h : i < l.length
  · simp [h, List.set_set]
  · have hlen :
        (l ++ (List.replicate (i - l.length) none ++ [v])).length = i + 1 := by
      simp [List.length_replicate]; omega
    simp only [h, if_false, hlen]
    rw [if_pos (by omega)]
    rw [List.set_append]
    rw [if_neg (by omega)]
    congr 1
    rw [List.set_append]
    rw [if_neg (by simp [List.length_replicate])]
    congr 1
    simp [List.length_replicate]

/-- Writing one slot leaves every other slot's (hole-flattened) read
unchanged. -/
theorem jsGetOpt_jsSetExtend_ne {α : Type} (l : List (Option α)) (i j : Nat)
    (v : Option α) (h : j ≠ i) :
    jsGetOpt (jsSetExtend l i v) j = jsGetOpt l j := by
  unfold jsGetOpt jsSetExtend
  by_cases hi : i < l.length
  · rw [if_pos hi, List.getElem?_set_ne (by omega)]
  · rw [if_neg hi]
    by_cases hj : j < l.length
    · rw [List.getElem?_append_left hj]
    · have hnone : l[j]? = none := by
        rw [List.getElem?_eq_none_iff]; omega
      rw [List.getElem?_append_right (by omega), hnone]
      by_cases hji : j - l.length < i - l.length
      · rw [List.getElem?_append_left
          (by simp only [List.length_replicate]; omega)]
        simp [List.getElem?_replicate, hji]
      · rw [List.getElem?_eq_none_iff.mpr
          (by simp only [List.length_replicate, List.length_append,
            List.length_cons, List.length_nil]; omega)]

/-- C3: slot identity is the (index, serial) pair.  In the enter-PVS arm
of `SvcPacketEntities`, when the slot is empty or the stored serial
differs from the update's, a fresh baseline-derived entity (class
baseline properties, the update's serial, in-PVS) is stored at the slot
and the delta applies to the baseline's properties; when the serial
matches, the stored entity itself is reused (its class, serial and index
unchanged) and only the delta is applied.  Slots other than the updated
one read back unchanged. -/
theorem enterPVS_serial_identity (st : DemoState) (es : List (Option Entity))
    (pc : ParserClass) (index serial : Nat) (b b' : DemoBuffer)
    (props : List EntityProp)
    (hbl : st.baselines.length ≠ 0)
    (hes : st.entities = some es)
    (hread : readProperties pc.flatProperties b = .ok (props, b')) :
    ((jsGetOpt es index = none ∨
        (∃ e, jsGetOpt es index = some e ∧ e.serial ≠ serial)) →
      ∀ bl newProps,
      jsGetOpt st.baselines pc.serverClass.tableID = some bl →
      props.foldlM applyDeltaStep bl.entityProperties = .ok newProps →
      enterPVSCase st pc index serial b =
        .ok ({ st with entities := some (jsSetExtend es index
          (some ⟨pc.serverClass, newProps, serial, index, true, true⟩)) },
          b')) ∧
    (∀ e, jsGetOpt es index = some e → e.serial = serial →
      ∀ newProps,
      props.foldlM applyDeltaStep e.properties = .ok newProps →
      enterPVSCase st pc index serial b =
        .ok ({ st with entities := some (jsSetExtend es index
          (some { e with inPVS := true, properties := newProps })) }, b')) ∧
    (∀ (x : Option Entity) j, j ≠ index →
      jsGetOpt (jsSetExtend es index x) j = jsGetOpt es j) := by
  refine ⟨?_, ?_, ?_⟩
  · intro hnew bl newProps hbl2 hfold
    rcases hx : jsGetOpt es index with _ | e
    · simp only [enterPVSCase, hes, hread, hx, Entity.enterPVS, hbl,
        Entity.fromBaseline, hbl2, Entity.applyDelta,
        jsSetExtend_jsSetExtend_self, jsGetOpt_jsSetExtend_self, hfold,
        if_false, if_true, eq_self_iff_true]
    · have hne : e.serial ≠ serial := by
        rcases hnew with h | ⟨e', he', hne'⟩
        · rw [hx] at h; exact absurd h (by simp)
        · rw [hx] at he'; cases he'; exact hne'
      have hd : decide (e.serial ≠ serial) = true := by simp [hne]
      simp only [enterPVSCase, hes, hread, hx, hd, Entity.enterPVS, hbl,
        Entity.fromBaseline, hbl2, Entity.applyDelta,
        jsSetExtend_jsSetExtend_self, jsGetOpt_jsSetExtend_self, hfold,
        if_false, if_true, eq_self_iff_true]
  · intro e hx he newProps hfold
    have hd : decide (e.serial ≠ serial) = false := by simp [he]
    simp only [enterPVSCase, hes, hread, hx, hd, Entity.enterPVS, hbl,
      Entity.applyDelta, jsSetExtend_jsSetExtend_self,
      jsGetOpt_jsSetExtend_self, hfold, if_false, if_true, eq_self_iff_true,
      Bool.false_eq_true]
  · intro x j hj
    exact jsGetOpt_jsSetExtend_ne es index j x (by omega)

/-- Concrete inputs for the C3 witness. -/
def scnSC : ServerClass := { tableID := 0, className := [], tableName := [] }

/-- Slot-4 entity with serial 7. -/
def scnEntity7 : Entity :=
  { serverClass := scnSC, properties := [], serial := 7, index := 4,
    inPVS := true, hasSource := true }

/-- Class baseline with one (hole) property slot. -/
def scnBaseline : StaticBaseline :=
  { serverClass := scnSC, entityProperties := [none] }

/-- Demo state: one baseline, entity slot 4 occupied by serial 7. -/
def scnState : DemoState :=
  { baselines := [some scnBaseline],
    entities := some [none, none, none, none, some scnEntity7] }

/-- Parser class with no flat properties (the byte blob 254,127 encodes
an immediate end-of-properties sentinel). -/
def scnPC : ParserClass := { serverClass := scnSC, flatProperties := [] }

/-- Witness for C3: the spec's scenario - slot 4 holds serial 7, an
enter-PVS at slot 4 with serial 9 stores a fresh baseline-derived entity
with serial 9 there. -/
theorem enterPVS_serial_identity_witness :
    enterPVSCase scnState scnPC 4 9 (DemoBuffer.mk [254, 127] 0)
      = .ok ({ scnState with entities := some [none, none, none, none,
          some { serverClass := scnSC, properties := [none], serial := 9,
                 index := 4, inPVS := true, hasSource := true }] },
        DemoBuffer.mk [254, 127] 15) := by
  exact (enterPVS_serial_identity scnState
      [none, none, none, none, some scnEntity7] scnPC 4 9
      (DemoBuffer.mk [254, 127] 0) (DemoBuffer.mk [254, 127] 15) []
      (by decide) rfl rfl).1
    (Or.inr ⟨scnEntity7, by decide, by decide⟩) scnBaseline [none]
    (by decide) rfl

/-! ### Write-side property codec and the public setter (C9) -/

/-- `EntityProperty.setFromInt`: writes at the property's recorded bit
span; the unsigned flag selects `setInt` over `setSignedInt`. -/
def setFromInt (ep : EntityProp) (b : DemoBuffer) (value : ℚ)
    (localOffset : Nat) : Nat × DemoBuffer :=
  let base := ep.property.baseProperty
  if base.hasFlag flagUnsigned then
    (ep.bufferSize, b.setInt (ep.bufferFrom + localOffset) ep.bufferSize value)
  else
    (ep.bufferSize,
     b.setSignedInt (ep.bufferFrom + localOffset) ep.bufferSize value)

/-- `EntityProperty.setFromFloat`: the write-side flag decision tree,
returning the bit count written and the updated buffer.  Shift amounts
use the JS `1 << n` value (`jsShlOne`); `Math.round` is `jsRound`,
`Math.floor` is `Int.floor`, `x % 1` is `jsFracPart`. -/
def setFromFloat (ep : EntityProp) (b : DemoBuffer) (value : ℚ)
    (localOffset : Nat) : Except String (Nat × DemoBuffer) :=
  let base := ep.property.baseProperty
  match base.value with
  | none => .error "Invalid property definition."
  | some pval =>
    let absValue := |value|
    let cursorStart := ep.bufferFrom + localOffset
    if base.hasFlag flagCoord then
      let hasInt := b.getBit cursorStart ≠ 0
      let hasFrac := b.getBit (cursorStart + 1) ≠ 0
      if ¬ hasInt ∧ ¬ hasFrac then .ok (2, b)
      else
        let b := b.setBit (cursorStart + 2) (decide (value < 0))
        let c := cursorStart + 3
        let (c, b) :=
          if hasInt then
            (c + 14, b.setInt c 14 ((Int.floor (max (absValue - 1) 0) : ℚ)))
          else (c, b)
        let (c, b) :=
          if hasFrac then
            (c + 5,
             b.setInt c 5 ((jsRound (absValue / (1 / (jsShlOne 5 : ℚ))) : ℚ)))
          else (c, b)
        .ok (c - cursorStart, b)
    else if base.hasFlag flagCoordMp ∨ base.hasFlag flagCoordMpLp ∨
        base.hasFlag flagCoordMpInt then
      let isInt := base.hasFlag flagCoordMpInt
      let isLP := base.hasFlag flagCoordMpLp
      let precision : Nat := if isLP then 3 else 5
      let intBits : Nat := if b.getBit cursorStart ≠ 0 then 11 else 14
      if isInt then
        if b.getBit (cursorStart + 1) ≠ 0 then
          let b := b.setBit (cursorStart + 2) (decide (value < 0))
          let b := b.setInt (cursorStart + 3) intBits (max 0 (absValue - 1))
          .ok (3 + intBits, b)
        else .ok (2, b)
      else
        let hasInt2 := b.getBit (cursorStart + 1) ≠ 0
        let b := b.setBit (cursorStart + 2) (decide (value < 0))
        let (c, b) :=
          if hasInt2 then
            (cursorStart + 3 + intBits,
             b.setInt (cursorStart + 3) intBits (max 0 (absValue - 1)))
          else (cursorStart + 3, b)
        let fraction := jsFracPart absValue / (jsShlOne precision : ℚ)
        let b := b.setInt c precision ((jsRound fraction : ℚ))
        .ok ((c + precision) - cursorStart, b)
    else if base.hasFlag flagNoScale then
      .ok (32, b.setFloat cursorStart value)
    else if base.hasFlag flagNormal then
      let b := b.setBit cursorStart (decide (value < 0))
      let b := b.setInt (cursorStart + 1) 11
        ((jsRound (absValue * ((jsShlOne 11 : ℚ) - 1)) : ℚ))
      .ok (12, b)
    else if base.hasFlag flagCellCoord ∨ base.hasFlag flagCellCoordLp ∨
        base.hasFlag flagCellCoordInt then
      let isInt := base.hasFlag flagCellCoordInt
      let isLP := base.hasFlag flagCellCoordLp
      let precision : Nat := if isLP then 3 else 5
      let b := b.setInt cursorStart pval.bits ((Int.floor absValue : ℚ))
      if isInt then .ok (pval.bits, b)
      else
        let fraction := jsFracPart absValue / (jsShlOne precision : ℚ)
        let b := b.setInt (cursorStart + pval.bits) precision
          ((jsRound fraction : ℚ))
        .ok (pval.bits + precision, b)
    else
      let interp := max 0 ((value - pval.low) / (pval.high - pval.low))
      let dwInterp := interp * ((jsShlOne pval.bits : ℚ) - 1)
      .ok (pval.bits, b.setInt cursorStart pval.bits dwInterp)

/-- `EntityProperty.setFromVector`: x is written at the property's base
offset (local offset 0, a source quirk), then y and z follow the running
cursor; under the Normal flag z is only a sign bit. -/
def setFromVector (ep : EntityProp) (b : DemoBuffer) (vector : Vec)
    (localOffset : Nat) : Except String (Nat × DemoBuffer) :=
  let base := ep.property.baseProperty
  match setFromFloat ep b vector.x 0 with
  | .error e => .error e
  | .ok (nx, b) =>
    match setFromFloat ep b vector.y nx with
    | .error e => .error e
    | .ok (ny, b) =>
      if base.type = propTypeVector2 then .ok (nx + ny, b)
      else if base.hasFlag flagNormal then
        .ok (nx + ny + 1,
             b.setBit (ep.bufferFrom + localOffset + nx + ny)
               (decide (vector.z < 0)))
      else
        match setFromFloat ep b vector.z (nx + ny) with
        | .error e => .error e
        | .ok (nz, b) => .ok (nx + ny + nz, b)

/-- `EntityProperty.setFromString`: the 9-bit length prefix is read from
the property's span, but the characters are written at absolute bit 9
onward - translated exactly as the source does it. -/
def setFromString (ep : EntityProp) (b : DemoBuffer) (value : List Nat)
    (localOffset : Nat) : Nat × DemoBuffer :=
  let start := ep.bufferFrom + localOffset
  let length := b.getInt start 9
  let b := (List.range length).foldl
    (fun b i => b.setInt (9 + i * 8) 8 (((value[i]?.getD 0 : Nat) : ℚ))) b
  (length * 8 + 9, b)

/-- `EntityProperty.setValue`: dispatch on the property's declared type
with a shape test on the value; any fall-through (wrong shape, or an
array- or data-table-typed property) throws.  The source interpolates
the value and property name into the thrown message; the embedded
message is fixed. -/
def setValue (ep : EntityProp) (b : DemoBuffer) (value : EPValue) :
    Except String DemoBuffer :=
  let t := ep.property.baseProperty.type
  if t = propTypeInt then
    match value with
    | .num q => .ok (setFromInt ep b q 0).2
    | _ => .error "Value not supported for property."
  else if t = propTypeFloat then
    match value with
    | .num q =>
      match setFromFloat ep b q 0 with
      | .error e => .error e
      | .ok (_, b) => .ok b
    | _ => .error "Value not supported for property."
  else if t = propTypeVector2 ∨ t = propTypeVector3 then
    match value with
    | .vec v =>
      match setFromVector ep b v 0 with
      | .error e => .error e
      | .ok (_, b) => .ok b
    | _ => .error "Value not supported for property."
  else if t = propTypeString then
    match value with
    | .str s => .ok (setFromString ep b s 0).2
    | _ => .error "Value not supported for property."
  else .error "Value not supported for property."

/-- The `find` of `GetProperty`/`SetProperty`: first non-hole property
whose flat name equals `name`. -/
def Entity.findProperty (e : Entity) (name : List Nat) : Option EntityProp :=
  (e.properties.find? fun p =>
    match p with
    | some q => decide (q.property.name = name)
    | none => false).getD none

/-- `Entity.SetProperty`: `false` when the name is absent or the entity
has no demo back-reference; otherwise delegates to `setValue`, whose
throw propagates to the caller. -/
def Entity.SetProperty (e : Entity) (b : DemoBuffer) (name : List Nat)
    (value : EPValue) : Except String (Bool × DemoBuffer) :=
  match e.findProperty name with
  | none => .ok (false, b)
  | some property =>
    if e.hasSource then
      match setValue property b value with
      | .error msg => .error msg
      | .ok b' => .ok (true, b')
    else .ok (false, b)

/-- An Int-typed entity property named "x" (char code 120) for the C9
counterexample. -/
def cexIntProp : EntityProp :=
  { index := 0,
    property := { name := [120],
                  baseProperty := { type := propTypeInt, name := [120],
                                    flags := 0, priority := 0 } },
    bufferFrom := 0, bufferSize := 8, value := .num 0 }

/-- An entity holding only that property, with a demo back-reference. -/
def cexEntity9 : Entity :=
  { serverClass := { tableID := 0, className := [], tableName := [] },
    properties := [some cexIntProp], serial := 1, index := 0,
    inPVS := true, hasSource := true }

/-- C9 counterexample: writing a string to an existing Int-typed property
through `SetProperty` is a thrown exception (`Except.error` from
`setValue`), not a `false` result - the claim's "never thrown as an
exception" fails for wrong-shape values. -/
theorem SetProperty_wrong_shape_counterexample :
    Entity.SetProperty cexEntity9 (DemoBuffer.mk [0] 0) [120] (.str [97])
      = .error "Value not supported for property." := by
  rfl

/-- C9 (amended): `SetProperty` returns `false` when the name is absent
on the entity or the entity has no demo back-reference.  Only the five
declared types Int, Float, Vector2, Vector3 and String have arms in
`setValue`'s switch: for those, a value of the matching shape is encoded
into the buffer and `true` is returned (for Float and Vector arms,
provided the write-side encoder itself succeeds), while a value of any
other shape throws.  A property of any OTHER declared type - notably an
Array-typed flat property - throws for every value, shape-matching or
not: the switch has no arm for it, so the fall-through `throw` fires.
Either way the throw propagates to `SetProperty`'s caller instead of a
`false` result. -/
theorem SetProperty_error_reporting (e : Entity) (b : DemoBuffer)
    (name : List Nat) (value : EPValue) :
    (e.findProperty name = none →
      Entity.SetProperty e b name value = .ok (false, b)) ∧
    (∀ p, e.findProperty name = some p → e.hasSource = false →
      Entity.SetProperty e b name value = .ok (false, b)) ∧
    (∀ p q, e.findProperty name = some p → e.hasSource = true →
      p.property.baseProperty.type = propTypeInt → value = .num q →
      Entity.SetProperty e b name value =
        .ok (true, (setFromInt p b q 0).2)) ∧
    (∀ p q b', e.findProperty name = some p → e.hasSource = true →
      p.property.baseProperty.type = propTypeFloat → value = .num q →
      (∃ n, setFromFloat p b q 0 = .ok (n, b')) →
      Entity.SetProperty e b name value = .ok (true, b')) ∧
    (∀ p v b', e.findProperty name = some p → e.hasSource = true →
      (p.property.baseProperty.type = propTypeVector2 ∨
       p.property.baseProperty.type = propTypeVector3) → value = .vec v →
      (∃ n, setFromVector p b v 0 = .ok (n, b')) →
      Entity.SetProperty e b name value = .ok (true, b')) ∧
    (∀ p s, e.findProperty name = some p → e.hasSource = true →
      p.property.baseProperty.type = propTypeString → value = .str s →
      Entity.SetProperty e b name value =
        .ok (true, (setFromString p b s 0).2)) ∧
    (∀ p, e.findProperty name = some p → e.hasSource = true →
      (((p.property.baseProperty.type = propTypeInt ∨
         p.property.baseProperty.type = propTypeFloat) ∧
        (∀ q, value ≠ .num q)) ∨
       ((p.property.baseProperty.type = propTypeVector2 ∨
         p.property.baseProperty.type = propTypeVector3) ∧
        (∀ v, value ≠ .vec v)) ∨
       (p.property.baseProperty.type = propTypeString ∧
        (∀ s, value ≠ .str s)) ∨
       (p.property.baseProperty.type ≠ propTypeInt ∧
        p.property.baseProperty.type ≠ propTypeFloat ∧
        p.property.baseProperty.type ≠ propTypeVector2 ∧
        p.property.baseProperty.type ≠ propTypeVector3 ∧
        p.property.baseProperty.type ≠ propTypeString)) →
      Entity.SetProperty e b name value =
        .error "Value not supported for property.") := by
  refine ⟨?_, ?_, ?_, ?_, ?_, ?_, ?_⟩
  · intro h
    simp only [Entity.SetProperty, h]
  · intro p hp hs
    simp only [Entity.SetProperty, hp, hs, Bool.false_eq_true, if_false]
  · intro p q hp hs ht hv
    subst hv
    simp only [Entity.SetProperty, hp, hs, if_true, setValue, ht,
      eq_self_iff_true]
  · intro p q b' hp hs ht hv hsf
    obtain ⟨n, hsf⟩ := hsf
    subst hv
    simp [Entity.SetProperty, hp, hs, setValue, ht, hsf, propTypeInt,
      propTypeFloat]
  · intro p v b' hp hs ht hv hsf
    obtain ⟨n, hsf⟩ := hsf
    subst hv
    rcases ht with ht | ht <;>
      simp [Entity.SetProperty, hp, hs, setValue, ht, hsf, propTypeInt,
        propTypeFloat, propTypeVector2, propTypeVector3]
  · intro p s hp hs ht hv
    subst hv
    simp [Entity.SetProperty, hp, hs, setValue, ht, propTypeInt,
      propTypeFloat, propTypeVector2, propTypeVector3, propTypeString]
  · intro p hp hs hcase
    rcases hcase with ⟨ht, hv⟩ | ⟨ht, hv⟩ | ⟨ht, hv⟩ |
      ⟨ht1, ht2, ht3, ht4, ht5⟩
    · rcases ht with ht | ht
      · simp only [Entity.SetProperty, hp, hs, if_true, setValue, ht,
          eq_self_iff_true]
      · simp [Entity.SetProperty, hp, hs, setValue, ht, propTypeInt,
          propTypeFloat]
    · rcases ht with ht | ht <;>
        simp [Entity.SetProperty, hp, hs, setValue, ht, propTypeInt,
          propTypeFloat, propTypeVector2, propTypeVector3]
    · simp [Entity.SetProperty, hp, hs, setValue, ht, propTypeInt,
        propTypeFloat, propTypeVector2, propTypeVector3, propTypeString]
    · simp [Entity.SetProperty, hp, hs, setValue, ht1, ht2, ht3, ht4, ht5]

/-- An Array-typed entity property named "z" (char code 122) for the C9
witness: `setValue` has no switch arm for Array, so every write to it
throws. -/
def cexArrProp9 : EntityProp :=
  { index := 0,
    property := { name := [122],
                  baseProperty := { type := propTypeArray, name := [122],
                                    flags := 0, priority := 0 } },
    bufferFrom := 0, bufferSize := 8, value := .numArr [] }

/-- An entity holding only the Array-typed property. -/
def cexEntityArr9 : Entity :=
  { serverClass := { tableID := 0, className := [], tableName := [] },
    properties := [some cexArrProp9], serial := 1, index := 0,
    inPVS := true, hasSource := true }

/-- Witness for C9: an absent name returns `false`; a number written to
the Int-typed property returns `true` with the buffer updated through
`setFromInt`; and a shape-matching array value written to the Array-typed
property still throws. -/
theorem SetProperty_error_reporting_witness :
    Entity.SetProperty cexEntity9 (DemoBuffer.mk [0] 0) [121] (.num 3)
      = .ok (false, DemoBuffer.mk [0] 0) ∧
    Entity.SetProperty cexEntity9 (DemoBuffer.mk [0] 0) [120] (.num 3)
      = .ok (true, (setFromInt cexIntProp (DemoBuffer.mk [0] 0) 3 0).2) ∧
    Entity.SetProperty cexEntityArr9 (DemoBuffer.mk [0] 0) [122] (.numArr [])
      = .error "Value not supported for property." :=
  ⟨(SetProperty_error_reporting cexEntity9 (DemoBuffer.mk [0] 0) [121]
      (.num 3)).1 (by decide),
   (SetProperty_error_reporting cexEntity9 (DemoBuffer.mk [0] 0) [120]
      (.num 3)).2.2.1 cexIntProp 3 (by decide) rfl rfl rfl,
   (SetProperty_error_reporting cexEntityArr9 (DemoBuffer.mk [0] 0) [122]
      (.numArr [])).2.2.2.2.2.2 cexArrProp9 (by decide) rfl
     (Or.inr (Or.inr (Or.inr ⟨by decide, by decide, by decide, by decide,
       by decide⟩)))⟩

/-! ### String tables (StringTable.ts, NetSvcMessage.ts: SvcUpdateStringTable) -/

/-- Char codes of a name literal, for comparing JS strings (modeled as
lists of char codes) against the source's string constants. -/
def strCodes (s : String) : List Nat := s.data.map Char.toNat

/-- Big-endian byte-list accumulation, as in `DataView.getBigUint64`. -/
def bytesToNatBE (l : List Nat) : Nat :=
  l.foldl (fun acc byte => acc * 256 + byte) 0

/-- `DemoBuffer.nextTrimmedString`: fixed-size read cut at the first NUL;
with no NUL, JS `slice(0, -1)` drops the last character. -/
def DemoBuffer.nextTrimmedString (b : DemoBuffer) (size : Nat) :
    List Nat × DemoBuffer :=
  let (s, b) := b.nextString size
  match s.findIdx? (fun c => decide (c = 0)) with
  | some i => (s.take i, b)
  | none => (s.take (s.length - 1), b)

/-- JS `parseInt` on a decimal string: optional sign, then the leading
run of digits; no digits gives NaN (`none`).  Leading-whitespace skipping
is not modeled; the entry names parsed here are bare indices. -/
def jsParseInt (s : List Nat) : Option Int :=
  let p : Int × List Nat :=
    match s with
    | 45 :: r => (-1, r)
    | 43 :: r => (1, r)
    | _ => (1, s)
  let digits := p.2.takeWhile (fun c => decide (48 ≤ c ∧ c ≤ 57))
  if digits = [] then none
  else some (p.1 * ((digits.foldl (fun acc c => acc * 10 + (c - 48)) 0 : Nat) : Int))

/-- A string table entry (`StringTableEntry` and its variants, keyed by
the owning table's name). -/
inductive STEntry where
  | plain (tableName entryName : List Nat)
  | playerInfo (tableName entryName : List Nat) (steamID : Nat)
      (name : List Nat) (userID : Int) (guid : List Nat) (friendsID : Nat)
      (friendsName : List Nat) (fakePlayer isHLTV : Bool)
      (customFilesCRC : List Nat) (filesDownloaded : Nat)
  | queryPort (tableName entryName : List Nat) (port : Nat)
  | instanceBaseline (tableName entryName : List Nat)
      (serverClass : Option ServerClass)
      (entityProperties : Option (List EntityProp))
  | stringEntryData (tableName entryName : List Nat) (s : List Nat)
  | lightStyle (tableName entryName : List Nat) (pattern : List Nat)
  | precacheData (tableName entryName : List Nat) (flags : Nat)
  deriving DecidableEq, Repr

/-- A string table (`StringTable`): `maxEntries` is `none` until the
create message sets it. -/
structure StringTable where
  name : List Nat
  entries : List STEntry
  maxEntries : Option Nat := none
  userDataSize : Nat := 0
  userDataSizeBits : Nat := 0
  deriving DecidableEq, Repr

/-- The demo slice touched by string-table entry parsing:
`demo.parserClasses` (null before DataTables), `demo.baselines`, and the
buffer. -/
structure STDemo where
  parserClasses : Option (List (Option ParserClass))
  baselines : List (Option StaticBaseline)
  buf : DemoBuffer
  deriving DecidableEq, Repr

/-- `StringTableEntry.fromDemo`: dispatch on the owning table's name to
the entry variant, each reading its payload from the buffer.  The
`instancebaseline` variant resolves the server class named by the entry,
reads a property block and merges it into the class baseline; its
`throw`s are the errors. -/
def stringTableEntryFromDemo (tableName entryName : List Nat) (d : STDemo) :
    Except String (STEntry × STDemo) :=
  if tableName = strCodes "userinfo" then
    let (sidBytes, buf) := d.buf.nextBytes 64
    let steamID := bytesToNatBE sidBytes
    let (pname, buf) := buf.nextTrimmedString (32 * 8)
    let (userID, buf) := buf.nextSignedInt 32
    let (guid, buf) := buf.nextTrimmedString (33 * 8)
    let (_, buf) := buf.nextInt (3 * 8)
    let (friendsID, buf) := buf.nextInt 32
    let (friendsName, buf) := buf.nextTrimmedString (32 * 8)
    let (fp, buf) := buf.nextByte
    let (ih, buf) := buf.nextByte
    let (_, buf) := buf.nextInt (2 * 8)
    let (c0, buf) := buf.nextInt 32
    let (c1, buf) := buf.nextInt 32
    let (c2, buf) := buf.nextInt 32
    let (c3, buf) := buf.nextInt 32
    let (fd, buf) := buf.nextByte
    .ok (.playerInfo tableName entryName steamID pname userID guid friendsID
          friendsName (decide (fp ≠ 0)) (decide (ih ≠ 0)) [c0, c1, c2, c3] fd,
         { d with buf := buf })
  else if tableName = strCodes "server_query_info" then
    let (port, buf) := d.buf.nextInt 32
    .ok (.queryPort tableName entryName port, { d with buf := buf })
  else if tableName = strCodes "instancebaseline" then
    match d.parserClasses with
    | none => .ok (.instanceBaseline tableName entryName none none, d)
    | some parserClasses =>
      match jsParseInt entryName with
      | none => .error "Entry name is not a valid server class index."
      | some idx =>
        if idx < 0 ∨ (parserClasses.length : Int) ≤ idx then
          .error "Entry name is not a valid server class index."
        else
          match jsGetOpt parserClasses idx.toNat with
          | none => .error "Could not find parsed entity class at index."
          | some pc =>
            match readProperties pc.flatProperties d.buf with
            | .error e => .error e
            | .ok (props, buf) =>
              match updateBaseline d.baselines pc.serverClass props
                  pc.flatProperties.length with
              | .error e => .error e
              | .ok baselines =>
                .ok (.instanceBaseline tableName entryName
                      (some pc.serverClass) (some props),
                     { d with baselines := baselines, buf := buf })
  else if tableName = strCodes "GameRulesCreation" ∨
      tableName = strCodes "InfoPanel" then
    let (s, buf) := d.buf.nextNullTerminatedString
    .ok (.stringEntryData tableName entryName s, { d with buf := buf })
  else if tableName = strCodes "lightstyles" then
    let (s, buf) := d.buf.nextNullTerminatedString
    .ok (.lightStyle tableName entryName s, { d with buf := buf })
  else if tableName = strCodes "modelprecache" ∨
      tableName = strCodes "genericprecache" ∨
      tableName = strCodes "soundprecache" ∨
      tableName = strCodes "decalprecache" then
    let (flags, buf) := d.buf.nextInt 2
    .ok (.precacheData tableName entryName flags, { d with buf := buf })
  else .ok (.plain tableName entryName, d)

/-- Result of the entry-name block of one `SvcUpdateStringTable` loop
iteration: a decoded name, or an abort (warn + jump to the message end). -/
inductive NameResult where
  | named (name : List Nat) (buf : DemoBuffer)
  | aborted (msg : String)
  deriving DecidableEq, Repr

/-- Name block of one `SvcUpdateStringTable` iteration (NetSvcMessage.ts
322-347): no-name entries get the empty name; otherwise the name is sent
in full, or substring-compressed as (5-bit history index, 5-bit shared
prefix length, NUL-terminated suffix).  The JS `if (!historyItem)` abort
fires both for a missing history slot and for an empty history name. -/
def readEntryName (buf : DemoBuffer) (history : List (List Nat)) :
    NameResult :=
  let (hasName, buf) := buf.nextBit
  if hasName ≠ 0 then
    let (compressed, buf) := buf.nextBit
    if compressed ≠ 0 then
      let (historyIndex, buf) := buf.nextInt 5
      let historyItem := (history[historyIndex]?).getD []
      if historyItem = [] then
        .aborted "Tried to retrieve non-existent entry from string table update history."
      else
        let (substringLength, buf) := buf.nextInt 5
        if historyItem.length < substringLength then
          .aborted "String table update entry substring longer than entry name."
        else
          let (suffix, buf) := buf.nextNullTerminatedString
          .named (historyItem.take substringLength ++ suffix) buf
    else
      let (s, buf) := buf.nextNullTerminatedString
      .named s buf
  else .named [] buf

/-- History push of one `SvcUpdateStringTable` iteration: a FIFO capped
at 32, shifting out the oldest name before the 33rd is pushed. -/
def pushHistory (history : List (List Nat)) (entryName : List Nat) :
    List (List Nat) :=
  let history := if history.length = 32 then history.drop 1 else history
  history ++ [entryName]

/-- The `for (let i = 0; i < this.changedEntries; i ++)` loop of
`SvcUpdateStringTable`, with `changedEntries` as the structural fuel.
Abort paths return the table as already mutated (the source mutates the
live table object in place), with the cursor at the message end and the
warning recorded. -/
def svcUpdateStringTableLoop (dataEnd maxEntries : Nat) :
    Nat → STDemo → StringTable → Int → List (List Nat) →
    Except String (StringTable × STDemo × List String)
  | 0, d, table, _, _ =>
    .ok (table, { d with buf := { d.buf with cursor := dataEnd } }, [])
  | fuel + 1, d, table, entryIndex, history =>
    let (bit, buf) := d.buf.nextBit
    let (entryIndex, buf) : Int × DemoBuffer :=
      if bit ≠ 0 then (entryIndex + 1, buf)
      else
        let (x, buf) := buf.nextInt (highestBitIndex maxEntries).toNat
        ((x : Int), buf)
    if (table.entries.length : Int) < entryIndex then
      .ok (table, { d with buf := { buf with cursor := dataEnd } },
           ["Overflowed string table size when parsing update."])
    else
      match readEntryName buf history with
      | .aborted msg =>
        .ok (table, { d with buf := { buf with cursor := dataEnd } }, [msg])
      | .named entryName buf =>
        let history := pushHistory history entryName
        let (hasData, buf) := buf.nextBit
        if hasData = 0 then
          svcUpdateStringTableLoop dataEnd maxEntries fuel
            { d with buf := buf } table entryIndex history
        else
          let (entryDataLength, buf) :=
            if table.userDataSizeBits ≠ 0 then (table.userDataSizeBits, buf)
            else
              let (x, buf) := buf.nextInt 14
              (x * 8, buf)
          if entryDataLength = 0 then
            svcUpdateStringTableLoop dataEnd maxEntries fuel
              { d with buf := buf } table entryIndex history
          else
            let entryDataEnd := buf.cursor + entryDataLength
            match stringTableEntryFromDemo table.name entryName
                { d with buf := buf } with
            | .error e => .error e
            | .ok (newEntry, d) =>
              let table :=
                if entryIndex < (table.entries.length : Int) then
                  { table with entries :=
                      table.entries.set entryIndex.toNat newEntry }
                else { table with entries := table.entries ++ [newEntry] }
              svcUpdateStringTableLoop dataEnd maxEntries fuel
                { d with buf := { d.buf with cursor := entryDataEnd } }
                table entryIndex history

/-- `SvcUpdateStringTable`: header reads, the pre-loop guards (each
aborting with the cursor at the message end), then the entry loop; on
every exit the (in-place mutated) table is written back at its index.
The insertion-order `Map` of tables is modeled as a list indexed by
`tableID`.  `(highestBitIndex maxEntries).toNat` matches the source for
`maxEntries ≥ 1` (at 0 the JS bit count is -1, which no real table
has). -/
def svcUpdateStringTable (stringTables : List StringTable) (d : STDemo) :
    Except String (List StringTable × STDemo × List String) :=
  let (tableID, buf) := d.buf.nextInt 5
  let (hasCount, buf) := buf.nextBit
  let (changedEntries, buf) :=
    if hasCount ≠ 0 then buf.nextInt 16 else (1, buf)
  let (dataLength, buf) := buf.nextInt 20
  let dataEnd := buf.cursor + dataLength
  match stringTables[tableID]? with
  | none =>
    .ok (stringTables, { d with buf := { buf with cursor := dataEnd } },
         ["Tried to update non-existent string table."])
  | some table =>
    match table.maxEntries with
    | none =>
      .ok (stringTables, { d with buf := { buf with cursor := dataEnd } },
           ["Got SvcUpdateStringTable before SvcCreateStringTable."])
    | some maxEntries =>
      let (dictionaryEnabled, buf) := buf.nextBit
      if dictionaryEnabled ≠ 0 then
        .ok (stringTables, { d with buf := { buf with cursor := dataEnd } },
             ["Unsupported string table update with dictionary."])
      else
        match svcUpdateStringTableLoop dataEnd maxEntries changedEntries
            { d with buf := buf } table (-1) [] with
        | .error e => .error e
        | .ok (table, d, warns) =>
          .ok (stringTables.set tableID table, d, warns)

/-- Absolute-address bit reads ignore the cursor field. -/
theorem getBit_set_cursor (b : DemoBuffer) (c p : Nat) :
    DemoBuffer.getBit { b with cursor := c } p = b.getBit p := rfl

/-- Absolute-address integer reads ignore the cursor field. -/
theorem getInt_set_cursor (b : DemoBuffer) (c p n : Nat) :
    DemoBuffer.getInt { b with cursor := c } p n = b.getInt p n := rfl

/-- C7: substring-compressed entry names.  With the name-present and
compressed bits set, the decoder reads a 5-bit history index and a 5-bit
shared-prefix length L, keeps the first L chars of the indexed history
name and appends the NUL-terminated suffix; an uncompressed encoding of
the same logical name decodes to the same name; and the per-entry
history push is a FIFO capped at 32 names, evicting the oldest first. -/
theorem updateStringTable_compressed_name
    (buf bufAfter : DemoBuffer) (history : List (List Nat))
    (item suffix : List Nat) (hIdx L : Nat)
    (h1 : buf.getBit buf.cursor ≠ 0)
    (h2 : buf.getBit (buf.cursor + 1) ≠ 0)
    (h3 : buf.getInt (buf.cursor + 2) 5 = hIdx)
    (h4 : history[hIdx]? = some item) (hne : item ≠ [])
    (h5 : buf.getInt (buf.cursor + 7) 5 = L) (hL : L ≤ item.length)
    (h6 : DemoBuffer.nextNullTerminatedString
            { buf with cursor := buf.cursor + 12 } = (suffix, bufAfter)) :
    readEntryName buf history = .named (item.take L ++ suffix) bufAfter ∧
    (∀ buf2 bufAfter2 : DemoBuffer, buf2.getBit buf2.cursor ≠ 0 →
      buf2.getBit (buf2.cursor + 1) = 0 →
      DemoBuffer.nextNullTerminatedString
          { buf2 with cursor := buf2.cursor + 2 }
        = (item.take L ++ suffix, bufAfter2) →
      readEntryName buf2 history = .named (item.take L ++ suffix) bufAfter2) ∧
    (pushHistory history (item.take L ++ suffix)).length
      = (if history.length = 32 then 32 else history.length + 1) ∧
    (history.length = 32 →
      pushHistory history (item.take L ++ suffix)
        = history.drop 1 ++ [item.take L ++ suffix]) ∧
    (history.length ≠ 32 →
      pushHistory history (item.take L ++ suffix)
        = history ++ [item.take L ++ suffix]) := by
  refine ⟨?_, ?_, ?_, ?_, ?_⟩
  · unfold readEntryName
    simp only [DemoBuffer.nextBit, DemoBuffer.nextInt, getBit_set_cursor,
      getInt_set_cursor]
    rw [if_pos h1, if_pos h2]
    rw [show buf.cursor + 1 + 1 = buf.cursor + 2 from by omega, h3, h4]
    simp only [Option.getD_some]
    rw [if_neg hne]
    rw [show buf.cursor + 2 + 5 = buf.cursor + 7 from by omega, h5]
    rw [if_neg (by omega)]
    rw [show buf.cursor + 7 + 5 = buf.cursor + 12 from by omega, h6]
  · intro buf2 bufAfter2 g1 g2
    unfold readEntryName
    simp only [DemoBuffer.nextBit, DemoBuffer.nextInt, getBit_set_cursor,
      getInt_set_cursor]
    rw [if_pos g1, if_neg (by simp [g2])]
    rw [show buf2.cursor + 1 + 1 = buf2.cursor + 2 from by omega]
    intro g3
    rw [g3]
  · unfold pushHistory
    by_cases h : history.length = 32
    · simp [h]
    · simp [h]
  · intro h
    unfold pushHistory
    rw [if_pos h]
  · intro h
    unfold pushHistory
    rw [if_neg h]

/-- Witness for C7: history holds the name "Hi"; a compressed entry with
history index 0, prefix length 1 and suffix "e" decodes to "He", and the
history push appends it. -/
theorem updateStringTable_compressed_name_witness :
    readEntryName (DemoBuffer.mk [131, 80, 6, 0] 0) [[72, 105]]
      = .named [72, 101] (DemoBuffer.mk [131, 80, 6, 0] 28) ∧
    pushHistory [[72, 105]] [72, 101] = [[72, 105], [72, 101]] := by
  have h := updateStringTable_compressed_name (DemoBuffer.mk [131, 80, 6, 0] 0)
    (DemoBuffer.mk [131, 80, 6, 0] 28) [[72, 105]] [72, 105] [101] 0 1
    (by decide) (by decide) (by decide) (by decide) (by decide) (by decide)
    (by decide) (by decide)
  exact ⟨h.1, h.2.2.2.2 (by decide)⟩

/-- A created string table (8-bit fixed entry data) for the C8
counterexample. -/
def cexTable8 : StringTable :=
  { name := [116], entries := [], maxEntries := some 2,
    userDataSizeBits := 8 }

/-- An unrelated second string table. -/
def cexOther8 : StringTable :=
  { name := [117], entries := [], maxEntries := some 2 }

/-- Demo slice for the C8 counterexample: the byte blob encodes an
update of table 0 with 2 changed entries, whose first entry "A" parses
fine and whose second entry references missing history slot 5. -/
def cexCore8 : STDemo :=
  { parserClasses := none, baselines := [],
    buf := DemoBuffer.mk [160, 0, 0, 25, 0, 88, 16, 64, 128, 23] 0 }

/-- C8 counterexample: the malformed second entry aborts the update, but
the first entry written by the same message survives in the table - the
table is NOT left in the state it had before the message began (no
rollback). -/
theorem svcUpdateStringTable_no_rollback_counterexample :
    svcUpdateStringTable [cexTable8, cexOther8] cexCore8
      = .ok ([{ cexTable8 with entries := [.plain [116] [65]] }, cexOther8],
          { cexCore8 with
            buf := DemoBuffer.mk [160, 0, 0, 25, 0, 88, 16, 64, 128, 23] 142 },
          ["Tried to retrieve non-existent entry from string table update history."])
      ∧
    [{ cexTable8 with entries := [.plain [116] [65]] }, cexOther8]
      ≠ [cexTable8, cexOther8] :=
  ⟨rfl, by decide⟩

/-- C8 (amended): a string-table update message only ever modifies the
table at the message's 5-bit table id; every other table reads back
unchanged.  A malformed entry aborts the rest of the message with the
cursor at the declared end and a warning, but entries applied earlier in
the same message persist - the targeted table is not rolled back. -/
theorem svcUpdateStringTable_only_target
    (stringTables : List StringTable) (d : STDemo)
    (tables' : List StringTable) (d' : STDemo) (warns : List String)
    (h : svcUpdateStringTable stringTables d = .ok (tables', d', warns)) :
    ∀ j, j ≠ d.buf.getInt d.buf.cursor 5 → tables'[j]? = stringTables[j]? := by
  intro j hj
  unfold svcUpdateStringTable at h
  simp only [DemoBuffer.nextBit, DemoBuffer.nextInt] at h
  repeat' split at h
  all_goals try exact Except.noConfusion h
  all_goals
    have h1 : _ = tables' := congrArg Prod.fst (Except.ok.inj h)
    first
      | (rw [← h1]
         exact List.getElem?_set_ne (by omega))
      | rw [← h1]

/-- Witness for C8's amended theorem: on the counterexample message
(targeting table 0), table 1 reads back unchanged. -/
theorem svcUpdateStringTable_only_target_witness :
    [{ cexTable8 with entries := [.plain [116] [65]] }, cexOther8][1]?
      = [cexTable8, cexOther8][1]? := by
  exact svcUpdateStringTable_only_target [cexTable8, cexOther8] cexCore8
    _ _ _ rfl 1 (by decide)

/-! ### Snapshot messages (NetSvcMessage.ts: SvcPacketEntities) -/

/-- Result of one arm of the `SvcPacketEntities` update switch: continue
the loop, or abort the message (warn, cursor to the declared end). -/
inductive PEStepResult where
  | next (st : DemoState) (buf : DemoBuffer)
  | abort (st : DemoState) (buf : DemoBuffer) (warning : String)
  deriving DecidableEq, Repr

/-- The `switch (updateType)` of the `SvcPacketEntities` update loop for
one already-range-checked entity index.  The 2-bit update type makes the
default arm unreachable from the loop, but the switch itself handles it
by aborting. -/
def peStep (dataEnd : Nat) (serverClasses : List ServerClass)
    (parserClasses : List (Option ParserClass)) (st : DemoState)
    (index updateType : Nat) (buf : DemoBuffer) :
    Except String PEStepResult :=
  match st.entities with
  | none => .error "Cannot read an index of undefined entities."
  | some es =>
    match updateType with
    | 0 =>
      match jsGetOpt es index with
      | none =>
        .ok (.abort st { buf with cursor := dataEnd }
          "Tried to apply delta to non-existent entity.")
      | some entity =>
        match jsGetOpt parserClasses entity.serverClass.tableID with
        | none =>
          .ok (.abort st { buf with cursor := dataEnd }
            "Missing parser class for entity.")
        | some pc =>
          match readProperties pc.flatProperties buf with
          | .error e => .error e
          | .ok (props, buf) =>
            match Entity.applyDelta st ⟨pc.serverClass, index, props⟩ with
            | .error e => .error e
            | .ok st => .ok (.next st buf)
    | 2 =>
      let idBits := (highestBitIndex serverClasses.length + 1).toNat
      let (tableID, buf) := buf.nextInt idBits
      let (serial, buf) := buf.nextInt 10
      match jsGetOpt parserClasses tableID with
      | none =>
        .ok (.abort st { buf with cursor := dataEnd }
          "Missing parser class for new entity.")
      | some pc =>
        match enterPVSCase st pc index serial buf with
        | .error e => .error e
        | .ok (st, buf) => .ok (.next st buf)
    | 1 =>
      match jsGetOpt es index with
      | none =>
        .ok (.abort st { buf with cursor := dataEnd }
          "Tried to delete non-existent entity.")
      | some entity =>
        match Entity.leavePVS st ⟨entity.serverClass, index, false⟩ with
        | .error e => .error e
        | .ok st => .ok (.next st buf)
    | 3 =>
      match jsGetOpt es index with
      | none =>
        .ok (.abort st { buf with cursor := dataEnd }
          "Tried to delete non-existent entity.")
      | some entity =>
        match Entity.leavePVS st ⟨entity.serverClass, index, true⟩ with
        | .error e => .error e
        | .ok st => .ok (.next st buf)
    | _ =>
      .ok (.abort st { buf with cursor := dataEnd }
        "Unknown entity update type.")

/-- The `for (let i = 0; i < this.updatedEntries; i ++)` loop of
`SvcPacketEntities`, with `updatedEntries` as the structural fuel: step
the running index by the variable-length delta plus one, range-check it
against the entity array, read the 2-bit update type and dispatch.  The
returned flag is true when an arm aborted the message. -/
def peLoop (dataEnd : Nat) (serverClasses : List ServerClass)
    (parserClasses : List (Option ParserClass)) :
    Nat → DemoState → DemoBuffer → Int →
    Except String (DemoState × DemoBuffer × List String × Bool)
  | 0, st, buf, _ => .ok (st, buf, [], false)
  | fuel + 1, st, buf, index =>
    let (bi, buf) := buf.nextBitInt
    let index := index + (bi : Int) + 1
    match st.entities with
    | none => .error "Cannot read an index of undefined entities."
    | some es =>
      if index < 0 ∨ (es.length : Int) < index then
        .ok (st, { buf with cursor := dataEnd },
             ["Entity update index overflowed."], true)
      else
        let (updateType, buf) := buf.nextInt 2
        match peStep dataEnd serverClasses parserClasses st index.toNat
            updateType buf with
        | .error e => .error e
        | .ok (.abort st buf w) => .ok (st, buf, [w], true)
        | .ok (.next st buf) =>
          peLoop dataEnd serverClasses parserClasses fuel st buf index

/-- The trailing `while (demo.buf.nextBit())` delete loop of a delta
snapshot.  Each iteration consumes 12 bits and a bit read past the blob
is 0, so `8 * bytes.length + 1` fuel always outlasts the source loop;
the fuel-exhausted arm is unreachable. -/
def peDeleteLoop : Nat → DemoState → DemoBuffer →
    Except String (DemoState × DemoBuffer)
  | 0, st, buf => .ok (st, buf)
  | fuel + 1, st, buf =>
    let (bit, buf) := buf.nextBit
    if bit = 0 then .ok (st, buf)
    else
      let (index, buf) := buf.nextInt 11
      match st.entities with
      | none => .error "Cannot read an index of undefined entities."
      | some es =>
        match jsGetOpt es index with
        | none => peDeleteLoop fuel st buf
        | some entity =>
          match Entity.leavePVS st ⟨entity.serverClass, index, true⟩ with
          | .error e => .error e
          | .ok st => peDeleteLoop fuel st buf

/-- The demo slice touched by `SvcPacketEntities`: schema presence
(`demo.dataTables`), the class lists, the entity pipeline state and the
current tick. -/
structure PEDemo where
  dataTablesPresent : Bool
  serverClasses : Option (List ServerClass)
  parserClasses : Option (List (Option ParserClass))
  baselines : List (Option StaticBaseline)
  entities : Option (List (Option Entity))
  tick : Int
  buf : DemoBuffer
  deriving DecidableEq, Repr

/-- `SvcPacketEntities`: header reads, the pre-loop guards (each warning
and jumping to the declared message end), the full-snapshot allocation of
2048 empty slots, the update loop, the delta-only trailing delete loop,
and the final cursor jump to the message end.  The message object's
`updates` log is not modeled. -/
def svcPacketEntities (d : PEDemo) : Except String (PEDemo × List String) :=
  let (_, buf) := d.buf.nextInt 11
  let (isDeltaBit, buf) := buf.nextBit
  let isDelta := isDeltaBit ≠ 0
  let (deltaFrom, buf) :=
    if isDelta then
      let (x, buf) := buf.nextSignedInt 32
      ((some x : Option Int), buf)
    else (none, buf)
  let (_, buf) := buf.nextBit
  let (updatedEntries, buf) := buf.nextInt 11
  let (dataLength, buf) := buf.nextInt 20
  let (_, buf) := buf.nextBit
  let dataEnd := buf.cursor + dataLength
  match d.serverClasses, d.parserClasses, d.dataTablesPresent with
  | some serverClasses, some parserClasses, true =>
    let deltaFromFuture : Bool :=
      match deltaFrom with
      | some df => decide (df ≠ 0) && decide (d.tick < df)
      | none => false
    if deltaFromFuture then
      .ok ({ d with buf := { buf with cursor := dataEnd } },
           ["Received entity delta from the future."])
    else
      let entities0 :=
        if ¬ isDelta then some (List.replicate 2048 (none : Option Entity))
        else d.entities
      match entities0 with
      | none =>
        .ok ({ d with buf := { buf with cursor := dataEnd } },
             ["Received entity delta before a full snapshot."])
      | some es =>
        match peLoop dataEnd serverClasses parserClasses updatedEntries
            { baselines := d.baselines, entities := some es } buf (-1) with
        | .error e => .error e
        | .ok (st, buf, warns, aborted) =>
          if aborted then
            .ok ({ d with
                    baselines := st.baselines
                    entities := st.entities
                    buf := buf }, warns)
          else if isDelta then
            match peDeleteLoop (8 * buf.bytes.length + 1) st buf with
            | .error e => .error e
            | .ok (st, buf) =>
              .ok ({ d with
                      baselines := st.baselines
                      entities := st.entities
                      buf := { buf with cursor := dataEnd } }, warns)
          else
            .ok ({ d with
                    baselines := st.baselines
                    entities := st.entities
                    buf := { buf with cursor := dataEnd } }, warns)
  | _, _, _ =>
    .ok ({ d with buf := { buf with cursor := dataEnd } },
         ["Tried to parse SvcPacketEntities before DataTables."])

/-- C4: recoverable snapshot aborts.  In the `SvcPacketEntities` update
loop, an out-of-range entity index, a delta (or delete) referring to an
absent entity slot - including one holed by an earlier delete - and an
unknown update type each stop the message's processing with the buffer
cursor at the declared message end and a warning, as an ordinary `.ok`
result rather than a thrown error, so the session parses on. -/
theorem packetEntities_recoverable_aborts (dataEnd : Nat)
    (serverClasses : List ServerClass)
    (parserClasses : List (Option ParserClass)) (fuel : Nat)
    (st : DemoState) (es : List (Option Entity)) (buf : DemoBuffer)
    (index : Int) (hes : st.entities = some es) :
    ((es.length : Int) < index + (buf.nextBitInt.1 : Int) + 1 →
      peLoop dataEnd serverClasses parserClasses (fuel + 1) st buf index =
        .ok (st, { buf.nextBitInt.2 with cursor := dataEnd },
             ["Entity update index overflowed."], true)) ∧
    (∀ i, jsGetOpt es i = none →
      peStep dataEnd serverClasses parserClasses st i 0 buf =
        .ok (.abort st { buf with cursor := dataEnd }
          "Tried to apply delta to non-existent entity.")) ∧
    (∀ i, jsGetOpt es i = none →
      peStep dataEnd serverClasses parserClasses st i 3 buf =
        .ok (.abort st { buf with cursor := dataEnd }
          "Tried to delete non-existent entity.")) ∧
    (∀ i u, 4 ≤ u →
      peStep dataEnd serverClasses parserClasses st i u buf =
        .ok (.abort st { buf with cursor := dataEnd }
          "Unknown entity update type.")) := by
  refine ⟨?_, ?_, ?_, ?_⟩
  · intro hover
    rcases hbi : buf.nextBitInt with ⟨bi, buf1⟩
    rw [hbi] at hover
    simp only at hover
    simp only [peLoop, hbi, hes]
    rw [if_pos (Or.inr hover)]
  · intro i hi
    simp only [peStep, hes, hi]
  · intro i hi
    simp only [peStep, hes, hi]
  · intro i u hu
    obtain ⟨k, rfl⟩ : ∃ k, u = k + 4 := ⟨u - 4, by omega⟩
    simp only [peStep, hes]

/-- Witness for C4: on an empty entity array, an overflowing index, a
delete against the absent slot 0, and update type 7 each abort with the
cursor at the declared end (99) and their warning. -/
theorem packetEntities_recoverable_aborts_witness :
    peLoop 99 [] [] 1 { baselines := [], entities := some [] }
      (DemoBuffer.mk [] 0) 0
      = .ok ({ baselines := [], entities := some [] },
          DemoBuffer.mk [] 99, ["Entity update index overflowed."], true) ∧
    peStep 99 [] [] { baselines := [], entities := some [] } 0 0
      (DemoBuffer.mk [] 0)
      = .ok (.abort { baselines := [], entities := some [] }
          (DemoBuffer.mk [] 99) "Tried to apply delta to non-existent entity.")
      ∧
    peStep 99 [] [] { baselines := [], entities := some [] } 0 3
      (DemoBuffer.mk [] 0)
      = .ok (.abort { baselines := [], entities := some [] }
          (DemoBuffer.mk [] 99) "Tried to delete non-existent entity.") ∧
    peStep 99 [] [] { baselines := [], entities := some [] } 0 7
      (DemoBuffer.mk [] 0)
      = .ok (.abort { baselines := [], entities := some [] }
          (DemoBuffer.mk [] 99) "Unknown entity update type.") := by
  have h := packetEntities_recoverable_aborts 99 [] [] 0
    { baselines := [], entities := some [] } [] (DemoBuffer.mk [] 0) 0 rfl
  exact ⟨h.1 (by decide), h.2.1 0 rfl, h.2.2.1 0 rfl, h.2.2.2 0 7 (by decide)⟩
